import Mathlib

/-!
Verification development for the GraniteRCA diagnostic pipeline
(`src/rca_core.py`, `src/rca_utils.py`, `src/resource_monitor.py`).

Text is modelled as `List Char`.  The regular expressions used by the
classifier and the impact assessor draw on a small fragment of Python's
`re` syntax: literal runs, the wildcard repetition `.*` (which does not
cross newlines, since `re.DOTALL` is never passed) and top-level
alternation `|`.  That fragment is embedded below together with the
semantics of `re.search` (existence of a match) and `re.findall`
(count of non-overlapping matches, scanning left to right, first
alternative wins, `.*` greedy).  All patterns are applied with
`re.IGNORECASE` to text that was already lower-cased, which on ASCII
text is equivalent to matching the lower-cased pattern literally; the
pattern tables below therefore carry the source's literals folded to
lower case.
-/

namespace GraniteRCA

/-- Text, modelled as a list of unicode characters. -/
abbrev Str := List Char

/-- Coerce a Lean string literal to `Str`. -/
def str (s : String) : Str := s.data

/-- Python `str.lower()`.  `Char.toLower` lower-cases the ASCII range and
is the identity elsewhere, which agrees with Python on all ASCII text
(every pattern literal in the tables below is ASCII). -/
def pyLower (s : Str) : Str := s.map Char.toLower

/-- Python `str.upper()`, ASCII range. -/
def pyUpper (s : Str) : Str := s.map Char.toUpper

/-! ## The regex fragment -/

/-- One piece of an alternation branch: a literal run, or `.*`. -/
inductive Piece where
  | lit (l : Str)
  | dotstar
deriving DecidableEq

/-- A branch of an alternation: a sequence of pieces. -/
abbrev Branch := List Piece

/-- A whole pattern: the list of its `|`-separated branches, in source
order. -/
abbrev Pattern := List Branch

/-- Length of the longest match of `b` against a prefix of `s`, following
Python's leftmost-then-greedy rules: a literal must match exactly, and
`.*` consumes as many non-newline characters as possible subject to the
remainder of the branch matching (backtracking from the longest
extent). -/
def matchEnd : Branch → Str → Option Nat
  | [], _ => some 0
  | Piece.lit l :: rest, s =>
      if l.isPrefixOf s then (matchEnd rest (s.drop l.length)).map (· + l.length) else none
  | Piece.dotstar :: rest, s =>
      ((List.range ((s.takeWhile (fun c => c ≠ '\n')).length + 1)).reverse).findSome?
        (fun k => (matchEnd rest (s.drop k)).map (fun e => k + e))

/-- Match of the full alternation at the start of `s`: Python tries
branches in order and commits to the first branch that matches. -/
def altMatchEnd (p : Pattern) (s : Str) : Option Nat :=
  p.findSome? (fun b => matchEnd b s)

/-- `re.search`: does the pattern match starting at any position of `s`
(including the position just past the end)? -/
def reSearch (p : Pattern) : Str → Bool
  | [] => (altMatchEnd p []).isSome
  | s@(_ :: rest) => (altMatchEnd p s).isSome || reSearch p rest

/-- The leftmost match: the length it consumes, paired with the suffix of
the text starting at the match position. -/
def findLeftmost (p : Pattern) : Str → Option (Nat × Str)
  | [] => (altMatchEnd p []).map (fun e => (e, ([] : Str)))
  | s@(_ :: rest) =>
      match altMatchEnd p s with
      | some e => some (e, s)
      | none => findLeftmost p rest

/-- Iteration of `re.findall`: count the leftmost match, then continue
after its end (one position further when the match was empty, as CPython
does).  The fuel only bounds the iteration; every step strictly shortens
the remaining text, so the `s.length + 1` supplied by `reFindallCount`
is never exhausted. -/
def countFrom (p : Pattern) : Nat → Str → Nat
  | 0, _ => 0
  | fuel + 1, s =>
      match findLeftmost p s with
      | none => 0
      | some (e, sAt) =>
          if e = 0 then
            match sAt with
            | [] => 1
            | _ :: t => 1 + countFrom p fuel t
          else 1 + countFrom p fuel (sAt.drop e)

/-- `len(re.findall(pattern, s))`. -/
def reFindallCount (p : Pattern) (s : Str) : Nat := countFrom p (s.length + 1) s

/-! ## Error and impact taxonomies (`SystemErrorTypes`, `ImpactLevel`) -/

namespace SystemErrorTypes

def KERNEL : Str := str ("kernel")
def SELINUX : Str := str ("selinux")
def JAVA : Str := str ("java")
def SYSTEMD : Str := str ("systemd")
def NETWORK : Str := str ("network")
def APPLICATION : Str := str ("application")
def BOOT : Str := str ("boot")
def HARDWARE : Str := str ("hardware")
def SECURITY : Str := str ("security")
def CONTAINER : Str := str ("container")

end SystemErrorTypes

namespace ImpactLevel

def CRITICAL : Str := str ("critical")
def HIGH : Str := str ("high")
def MEDIUM : Str := str ("medium")
def LOW : Str := str ("low")
def INFO : Str := str ("info")

end ImpactLevel

/-! ## The pattern tables (`SystemLogScanner.__init__`)

Python dicts preserve insertion order, so the tables are assoc lists in
the order of the source.  Each pattern's literals appear lower-cased
(see the note on `re.IGNORECASE` at the top of the file). -/

open Piece in
/-- `self.error_patterns` from `SystemLogScanner.__init__`. -/
def error_patterns : List (Str × List Pattern) :=
  [ (SystemErrorTypes.KERNEL,
      [ [[lit (str ("kernel:")), dotstar, lit (str ("error"))],
         [lit (str ("panic"))], [lit (str ("oops"))], [lit (str ("bug"))], [lit (str ("fault"))]],
        [[lit (str ("call trace:"))]],
        [[lit (str ("segfault"))]],
        [[lit (str ("unable to handle kernel paging request"))]],
        [[lit (str ("kernel null pointer dereference"))]] ]),
    (SystemErrorTypes.SELINUX,
      [ [[lit (str ("avc:")), dotstar, lit (str ("denied"))]],
        [[lit (str ("selinux")), dotstar, lit (str ("denied"))]],
        [[lit (str ("type=avc")), dotstar, lit (str ("denied"))]],
        [[lit (str ("scontext=")), dotstar, lit (str ("tcontext=")), dotstar, lit (str ("denied"))]] ]),
    (SystemErrorTypes.JAVA,
      [ [[lit (str ("java.")), dotstar, lit (str ("exception"))]],
        [[lit (str ("exception in thread"))]],
        [[lit (str ("outofmemoryerror"))]],
        [[lit (str ("stackoverflowerror"))]],
        [[lit (str ("classnotfoundexception"))]],
        [[lit (str ("noclassdeffounderror"))]] ]),
    (SystemErrorTypes.SYSTEMD,
      [ [[lit (str ("systemd")), dotstar, lit (str ("failed"))]],
        [[lit (str ("failed to start"))]],
        [[lit (str ("unit")), dotstar, lit (str ("failed"))]],
        [[lit (str ("service")), dotstar, lit (str ("failed"))]] ]),
    (SystemErrorTypes.NETWORK,
      [ [[lit (str ("connection")), dotstar, lit (str ("refused"))],
         [lit (str ("timeout"))], [lit (str ("reset"))]],
        [[lit (str ("network")), dotstar, lit (str ("unreachable"))]],
        [[lit (str ("dns")), dotstar, lit (str ("failed"))]],
        [[lit (str ("socket")), dotstar, lit (str ("error"))]] ]),
    (SystemErrorTypes.BOOT,
      [ [[lit (str ("failed to mount"))]],
        [[lit (str ("boot")), dotstar, lit (str ("error"))], [lit (str ("failed"))]],
        [[lit (str ("initramfs")), dotstar, lit (str ("error"))]],
        [[lit (str ("grub")), dotstar, lit (str ("error"))]] ]),
    (SystemErrorTypes.CONTAINER,
      [ [[lit (str ("container")), dotstar, lit (str ("failed"))],
         [lit (str ("error"))], [lit (str ("crash"))]],
        [[lit (str ("pod")), dotstar, lit (str ("failed"))],
         [lit (str ("error"))], [lit (str ("crash"))]],
        [[lit (str ("docker")), dotstar, lit (str ("error"))], [lit (str ("failed"))]],
        [[lit (str ("podman")), dotstar, lit (str ("error"))], [lit (str ("failed"))]] ]) ]

open Piece in
/-- `self.impact_indicators` from `SystemLogScanner.__init__`, in the
severity order `critical, high, medium, low` that `assess_impact`
iterates. -/
def impact_indicators : List (Str × List Pattern) :=
  [ (ImpactLevel.CRITICAL,
      [ [[lit (str ("panic"))], [lit (str ("fatal"))], [lit (str ("crash"))], [lit (str ("segfault"))]],
        [[lit (str ("data")), dotstar, lit (str ("loss"))], [lit (str ("corrupt"))]],
        [[lit (str ("system")), dotstar, lit (str ("halt"))], [lit (str ("shutdown"))]],
        [[lit (str ("kernel")), dotstar, lit (str ("panic"))]],
        [[lit (str ("out of memory"))]],
        [[lit (str ("disk")), dotstar, lit (str ("full"))]] ]),
    (ImpactLevel.HIGH,
      [ [[lit (str ("failed to start"))]],
        [[lit (str ("service")), dotstar, lit (str ("down"))]],
        [[lit (str ("connection")), dotstar, lit (str ("refused"))]],
        [[lit (str ("authentication")), dotstar, lit (str ("failed"))]],
        [[lit (str ("permission")), dotstar, lit (str ("denied"))]] ]),
    (ImpactLevel.MEDIUM,
      [ [[lit (str ("warning"))]], [[lit (str ("degraded"))]], [[lit (str ("slow"))]],
        [[lit (str ("timeout"))]], [[lit (str ("retry"))]] ]),
    (ImpactLevel.LOW,
      [ [[lit (str ("notice"))]], [[lit (str ("info"))]], [[lit (str ("debug"))]] ]) ]

/-! ## Classification and impact assessment -/

/-- `f"{error_desc} {log_content}".lower()`. -/
def combinedText (error_desc log_content : Str) : Str :=
  pyLower (error_desc ++ [' '] ++ log_content)

/-- The `scores` dict of `classify_error_type`: for every error type, the
sum over its patterns of the `re.findall` match counts. -/
def categoryScores (error_desc log_content : Str) : List (Str × Nat) :=
  let combined := combinedText error_desc log_content
  error_patterns.map (fun ep => (ep.1, (ep.2.map (fun p => reFindallCount p combined)).sum))

/-- `SystemLogScanner.classify_error_type`: return the error type with
the highest score.  Python's `max` over `scores.items()` keeps the
earliest item and replaces it only on a strictly larger key, so the
first maximal entry in table order wins.  The fallback to
`APPLICATION` mirrors the source's `if scores:` guard. -/
def classify_error_type (error_desc log_content : Str) : Str :=
  match categoryScores error_desc log_content with
  | [] => SystemErrorTypes.APPLICATION
  | x :: xs => (xs.foldl (fun best y => if best.2 < y.2 then y else best) x).1

/-- `SystemLogScanner.assess_impact`: walk the tiers in severity order
and return the first level one of whose patterns `re.search`-matches;
`info` when none does. -/
def assess_impact (error_desc log_content : Str) : Str :=
  let combined := combinedText error_desc log_content
  match impact_indicators.find? (fun li => li.2.any (fun p => reSearch p combined)) with
  | some li => li.1
  | none => ImpactLevel.INFO

/-! ## JSON-serialisable values

Every value the pipeline stores in its report dict or receives from the
external collaborators (docling metadata, container health, resource
snapshots) is a JSON-shaped Python value: a string, a non-negative
integer, a boolean, a list, or a string-keyed dict (Python dicts
preserve insertion order, hence the assoc-list model). -/

inductive Json where
  | str (s : Str)
  | nat (n : Nat)
  | bool (b : Bool)
  | arr (xs : List Json)
  | obj (kvs : List (Str × Json))

/-- Python `dict.get(key, default)` on a JSON object (`default` on
non-dicts, which cannot occur in the pipeline's uses). -/
def Json.getD (j : Json) (key : Str) (default : Json) : Json :=
  match j with
  | .obj kvs =>
      match kvs.find? (fun kv => kv.1 == key) with
      | some kv => kv.2
      | none => default
  | _ => default

/-- Decimal digit `d < 10` as a character. -/
def digitChar (d : Nat) : Char := Char.ofNat (48 + d)

/-- Decimal rendering of a natural number, as Python prints an `int`. -/
def natDigits (n : Nat) : Str :=
  if h : n < 10 then [digitChar n]
  else natDigits (n / 10) ++ [digitChar (n % 10)]
decreasing_by exact Nat.div_lt_self (by omega) (by omega)

/-- Python `repr` of a string, single-quoted (escaping is not modelled:
this rendering is display-only and no claim inspects these regions). -/
def pyReprStr (s : Str) : Str := '\'' :: (s ++ ['\''])

mutual

/-- Python `repr` of a JSON-shaped value, used only for display inside
the prompt. -/
def pyRepr : Json → Str
  | .str s => pyReprStr s
  | .nat n => natDigits n
  | .bool b => if b then str ("True") else str ("False")
  | .arr xs => '[' :: (pyReprItems xs ++ [']'])
  | .obj kvs => '{' :: (pyReprMembers kvs ++ ['}'])

/-- Comma-separated `repr`s of list items. -/
def pyReprItems : List Json → Str
  | [] => []
  | [x] => pyRepr x
  | x :: y :: xs => pyRepr x ++ str (", ") ++ pyReprItems (y :: xs)

/-- Comma-separated `repr`s of dict members. -/
def pyReprMembers : List (Str × Json) → Str
  | [] => []
  | [(k, v)] => pyReprStr k ++ str (": ") ++ pyRepr v
  | (k, v) :: kv2 :: kvs =>
      pyReprStr k ++ str (": ") ++ pyRepr v ++ str (", ")
        ++ pyReprMembers (kv2 :: kvs)

end

/-- Python `str()` of a JSON-shaped value, as an f-string interpolation
renders it: a string stays itself, everything else falls back to
`repr`-style display. -/
def pyToStr : Json → Str
  | .str s => s
  | j => pyRepr j

/-! ## Prompt composition (`rca_utils.build_enhanced_prompt`) -/

/-- The `additional_context` dict assembled by `perform_enhanced_rca`:
three always-present entries plus three conditionally-inserted ones
(`None` models an absent key). -/
structure AddCtx where
  docling_metadata : Option Json
  error_patterns : List Json
  docling_available : Bool
  container_health : Option Json
  resource_usage : Option Json
  cpu_info : Option Json

/-- `type_specific_guidance` from `build_enhanced_prompt`. -/
def type_specific_guidance : List (Str × Str) :=
  [ (SystemErrorTypes.KERNEL,
      str ("\nFocus on kernel-level issues:\n- Memory management problems\n- Hardware compatibility issues\n- Driver conflicts\n- Kernel module problems\n- System resource exhaustion\n")),
    (SystemErrorTypes.SELINUX,
      str ("\nFocus on SELinux security policy issues:\n- Permission denials and context mismatches\n- Policy rule violations\n- File context labeling problems\n- Service access restrictions\n- Boolean policy settings\n")),
    (SystemErrorTypes.JAVA,
      str ("\nFocus on JVM and Java application issues:\n- ClassPath and dependency problems\n- Memory heap and garbage collection issues\n- Thread deadlocks and concurrency problems\n- Library version conflicts\n- JVM configuration issues\n")),
    (SystemErrorTypes.BOOT,
      str ("\nFocus on system boot and initialization issues:\n- Bootloader configuration problems\n- Initramfs and kernel loading issues\n- File system mount failures\n- Service startup dependencies\n- Hardware initialization problems\n")),
    (SystemErrorTypes.CONTAINER,
      str ("\nFocus on container-related issues:\n- Container runtime problems\n- Resource constraints and limits\n- Network connectivity issues\n- Volume mount problems\n- Container orchestration issues\n")) ]

/-- `impact_guidance` from `build_enhanced_prompt`. -/
def impact_guidance : List (Str × Str) :=
  [ (ImpactLevel.CRITICAL,
      str ("\nCRITICAL IMPACT - System-wide outage or data loss risk:\n- Focus on immediate service restoration\n- Prioritize data integrity and recovery\n- Consider system-wide implications\n- Plan for failover if available\n")),
    (ImpactLevel.HIGH,
      str ("\nHIGH IMPACT - Major service disruption:\n- Focus on core service functionality\n- Check dependent services\n- Monitor resource usage\n- Consider service dependencies\n")),
    (ImpactLevel.MEDIUM,
      str ("\nMEDIUM IMPACT - Partial service degradation:\n- Focus on performance optimization\n- Check resource utilization\n- Monitor error rates\n- Consider scaling options\n")),
    (ImpactLevel.LOW,
      str ("\nLOW IMPACT - Minor issues:\n- Focus on service improvements\n- Check configuration settings\n- Monitor for escalation\n- Consider preventive measures\n")) ]

/-- `dict.get(key, default)` on an assoc list of strings. -/
def assocGetD (tbl : List (Str × Str)) (key : Str) (default : Str) : Str :=
  match tbl.find? (fun kv => kv.1 == key) with
  | some kv => kv.2
  | none => default

/-- The `triage_guidance` block. -/
def triage_guidance_text : Str :=
  str ("\nTRIAGE MODE - Live outage in progress:\n- Focus on immediate service restoration\n- Prioritize critical systems\n- Gather essential diagnostics\n- Document actions taken\n- Plan for post-incident review\n")

/-- The `docling_info` block of `build_enhanced_prompt`: present when an
`additional_context` dict with a `docling_metadata` key was passed. -/
def docling_info_of (additional_context : Option AddCtx) : Str :=
  match additional_context with
  | none => []
  | some c =>
      match c.docling_metadata with
      | none => []
      | some metadata =>
          let eps := c.error_patterns
          let base :=
            str ("\nDOCUMENT PARSING INFORMATION:\n- Parsing engine: ")
              ++ (if c.docling_available then str ("Docling (enhanced)") else str ("Basic text parser"))
              ++ str ("\n- Document type: ")
              ++ pyToStr (metadata.getD (str ("document_type")) (Json.str (str ("unknown"))))
              ++ str ("\n- Structure elements: ")
              ++ pyToStr (metadata.getD (str ("structure_elements")) (Json.nat 0))
              ++ str ("\n- Error patterns detected: ") ++ natDigits eps.length ++ str ("\n")
          if eps.isEmpty then base
          else
            base ++ str ("\nKEY ERROR PATTERNS DETECTED:\n")
              ++ ((eps.take 5).enum.map (fun ip =>
                    natDigits (ip.1 + 1) ++ str (". ")
                      ++ pyUpper (pyToStr (ip.2.getD (str ("category")) (Json.str (str ("unknown")))))
                      ++ str (": ")
                      ++ pyToStr (ip.2.getD (str ("match")) (Json.str []))
                      ++ str ("\n"))).flatten

/-- The `container_info` block. -/
def container_info_of (additional_context : Option AddCtx) : Str :=
  match additional_context with
  | none => []
  | some c =>
      match c.container_health with
      | none => []
      | some ch => str ("\nCONTAINER HEALTH INFORMATION:\n") ++ pyToStr ch

/-- The `resource_info` block. -/
def resource_info_of (additional_context : Option AddCtx) : Str :=
  match additional_context with
  | none => []
  | some c =>
      if c.resource_usage.isSome || c.cpu_info.isSome then
        str ("\nRESOURCE USAGE INFORMATION:\n")
          ++ (match c.resource_usage with
              | some ru => pyToStr ru
              | none => [])
          ++ (match c.cpu_info with
              | some ci => str ("\nCPU INFORMATION:\n") ++ pyToStr ci
              | none => [])
      else []

/-- The fixed tail of the prompt template: the report outline the model
is instructed to follow.  In the source it is the trailing part of one
f-string literal; it is spelled here as the concatenation of the same
text, split at the section headers. -/
def promptOutline : Str :=
  str ("\n\nProvide a comprehensive diagnostic analysis with the following structure:\n\n")
    ++ str ("## Root Cause Analysis")
    ++ str ("\nIdentify the primary cause and any contributing factors.\n\n")
    ++ str ("## Technical Evidence")
    ++ str ("\nPoint to specific log entries, error codes, or system indicators that support your analysis.\n\n")
    ++ str ("## Impact Assessment")
    ++ str ("\nDescribe what systems/services are affected and the severity level.\n\n")
    ++ str ("## Immediate Fix")
    ++ str ("\nProvide step-by-step instructions for immediate resolution.\n\n")
    ++ str ("## Long-term Prevention")
    ++ str ("\nSuggest monitoring, configuration changes, or best practices to prevent recurrence.\n\n")
    ++ str ("## Advanced Diagnostics")
    ++ str ("\nIf the issue persists, provide additional diagnostic commands and investigation steps.\n\n")
    ++ str ("## Security Considerations")
    ++ str ("\nHighlight any security implications and recommended security measures.\n\n")
    ++ str ("## Lessons Learned")
    ++ str ("\nSuggest improvements to prevent similar issues in the future.\n\n")
    ++ str ("Be specific with command examples, file paths, and configuration snippets where applicable.\n")

/-- `rca_utils.build_enhanced_prompt`: deterministic assembly of the
analysis prompt. -/
def build_enhanced_prompt (error_desc log_lines error_type system_context impact_level : Str)
    (additional_context : Option AddCtx) (triage_mode : Bool) : Str :=
  let guidance :=
    assocGetD type_specific_guidance error_type
      (str ("Focus on application-level debugging strategies."))
  let impact :=
    assocGetD impact_guidance impact_level
      (str ("Assess impact based on service criticality."))
  let triage_guidance := if triage_mode then triage_guidance_text else []
  let docling_info := docling_info_of additional_context
  let container_info := container_info_of additional_context
  let resource_info := resource_info_of additional_context
  str ("You are an expert system administrator and diagnostic specialist with deep knowledge of Linux systems, security policies, application frameworks, and hardware troubleshooting.\n\nERROR CLASSIFICATION: ")
    ++ pyUpper error_type
    ++ str ("\nIMPACT LEVEL: ")
    ++ pyUpper impact_level
    ++ str ("\n\nThe user is reporting the following error:\n\"")
    ++ error_desc
    ++ str ("\"\n\nSYSTEM CONTEXT:\n")
    ++ system_context
    ++ str ("\n\nLOG ANALYSIS DATA:\n")
    ++ log_lines
    ++ str ("\n\n")
    ++ docling_info
    ++ str ("\n")
    ++ container_info
    ++ str ("\n")
    ++ resource_info
    ++ str ("\n\nSPECIALIZED GUIDANCE:\n")
    ++ guidance
    ++ str ("\n\nIMPACT ASSESSMENT:\n")
    ++ impact
    ++ str ("\n\n")
    ++ triage_guidance
    ++ promptOutline

/-! ## The orchestrator (`rca_core.perform_enhanced_rca`)

The external collaborators — the filesystem, the Docling parser, the
system-log scan, the container/resource monitors and the language
model — are modelled as an environment record: the pipeline is a pure
function of its arguments and of the collaborators' responses. -/

/-- Result of `scanner.docling_parser.parse_log_file` together with the
`extract_error_patterns` extraction on it; `error?` models the presence
of the `'error'` key in the returned dict. -/
structure ParsedLog where
  error? : Option Str
  content : Str
  metadata : Json
  parsing_method : Str
  errorPatterns : List Json

/-- One entry of the dict returned by `scanner.scan_system_logs`. -/
structure ScanData where
  content : Str
  errorPatterns : List Json

/-- The external collaborators of one run. -/
structure Env where
  pathExists : Str → Bool
  parseLogFile : Str → ParsedLog
  scanFound : List (Str × ScanData)
  doclingAvailable : Bool
  systemContext : Str
  containerHealth : Json
  topInfo : Json
  cpuInfo : Json
  modelResult : Except Str Str
  timestamp : Str

/-- The exceptions `perform_enhanced_rca` can raise from within the
`try` block: the two `FileNotFoundError` raises of the input stage, and
a failure while talking to the model collaborator. -/
inductive RcaErr where
  | fileNotFound (m : Str)
  | modelFailure (m : Str)

/-- `str(e)` of a raised exception. -/
def RcaErr.message : RcaErr → Str
  | .fileNotFound m => m
  | .modelFailure m => m

/-- Python truthiness of the optional `logfile_path` argument (`None`
and the empty string are falsy). -/
def pyTruthyPath : Option Str → Bool
  | none => false
  | some s => !s.isEmpty

/-- The quick-mode sentinel assigned to `log_content` when neither a log
file nor a system scan was requested. -/
def quickModeLog : Str :=
  str ("No specific log file provided - analysis based on error description and system context.")

/-- The sentinel used when a requested system scan finds nothing. -/
def emptyScanLog : Str :=
  str ("No recent system errors detected in standard log locations.")

/-- The input stage of `perform_enhanced_rca` (lines 296-355): produce
`(log_content, parsed_log_metadata, error_patterns)` or raise.  Branch
order follows the source: an existing explicit file wins, then the
system scan, then the missing-file raise, then quick mode. -/
def gatherLog (env : Env) (logfile_path : Option Str) (scan_system : Bool) :
    Except RcaErr (Str × Json × List Json) :=
  if pyTruthyPath logfile_path && env.pathExists (logfile_path.getD []) then
    let parsed := env.parseLogFile (logfile_path.getD [])
    match parsed.error? with
    | some e => .error (.fileNotFound (str ("Failed to parse log file: ") ++ e))
    | none => .ok (parsed.content, parsed.metadata, parsed.errorPatterns)
  else if scan_system then
    if env.scanFound.isEmpty then .ok (emptyScanLog, Json.obj [], [])
    else
      .ok (List.intercalate (str ("\n\n"))
             (env.scanFound.map (fun sd =>
                str ("=== ") ++ pyUpper sd.1 ++ str (" LOGS ===\n") ++ sd.2.content)),
           Json.obj [],
           (env.scanFound.map (fun sd => sd.2.errorPatterns)).flatten)
  else if pyTruthyPath logfile_path then
    .error (.fileNotFound (str ("Log file not found: ") ++ logfile_path.getD []))
  else
    .ok (quickModeLog, Json.obj [], [])

/-- The record assembled at lines 418-436 of `perform_enhanced_rca` and
handed to `ResourceMonitor.save_report`. -/
structure Report where
  timestamp : Str
  error_description : Str
  error_type : Str
  impact_level : Str
  analysis : Str
  system_context : Str
  additional_context : AddCtx
  docling_available : Bool
  docling_metadata : Json
  error_patterns_found : Nat

/-- The `additional_context` dict as the JSON value it serialises to,
keys in insertion order, conditional keys present exactly when
gathered. -/
def AddCtx.toJson (c : AddCtx) : Json :=
  Json.obj
    ((match c.docling_metadata with
      | some m => [(str ("docling_metadata"), m)]
      | none => [])
      ++ [(str ("error_patterns"), Json.arr c.error_patterns),
          (str ("docling_available"), Json.bool c.docling_available)]
      ++ (match c.container_health with
          | some h => [(str ("container_health"), h)]
          | none => [])
      ++ (match c.resource_usage with
          | some r => [(str ("resource_usage"), r)]
          | none => [])
      ++ (match c.cpu_info with
          | some ci => [(str ("cpu_info"), ci)]
          | none => []))

/-- The report dict as the JSON value `json.dump` receives. -/
def reportJson (r : Report) : Json :=
  Json.obj
    [ (str ("timestamp"), Json.str r.timestamp),
      (str ("error_description"), Json.str r.error_description),
      (str ("error_type"), Json.str r.error_type),
      (str ("impact_level"), Json.str r.impact_level),
      (str ("analysis"), Json.str r.analysis),
      (str ("system_context"), Json.str r.system_context),
      (str ("additional_context"), r.additional_context.toJson),
      (str ("docling_parsing"), Json.obj
        [ (str ("available"), Json.bool r.docling_available),
          (str ("metadata"), r.docling_metadata),
          (str ("error_patterns_found"), Json.nat r.error_patterns_found) ]),
      (str ("lessons_learned"), Json.obj
        [ (str ("root_cause"), Json.str (str ("To be filled after resolution"))),
          (str ("preventive_measures"), Json.str (str ("To be filled after resolution"))),
          (str ("improvement_areas"), Json.str (str ("To be filled after resolution"))) ]) ]

/-- Successful outcome of one run. -/
structure RunResult where
  error_type : Str
  impact_level : Str
  additional_context : AddCtx
  prompt : Str
  analysis : Str
  report : Report

/-- The analysis stage of `perform_enhanced_rca` (lines 357-442):
classification, impact assessment, conditional context gathering,
prompt building, the model call and the report assembly. -/
def analyzeAndReport (env : Env) (error_desc : Str) (triage_mode : Bool)
    (log_content : Str) (parsed_log_metadata : Json) (error_patterns : List Json) :
    Except RcaErr RunResult :=
  let error_type := classify_error_type error_desc log_content
  let impact_level := assess_impact error_desc log_content
  let gatherResources :=
    impact_level = ImpactLevel.CRITICAL ∨ impact_level = ImpactLevel.HIGH ∨ triage_mode = true
  let additional_context : AddCtx :=
    { docling_metadata := some parsed_log_metadata
      error_patterns := error_patterns.take 20
      docling_available := env.doclingAvailable
      container_health :=
        if error_type = SystemErrorTypes.CONTAINER then some env.containerHealth else none
      resource_usage := if gatherResources then some env.topInfo else none
      cpu_info := if gatherResources then some env.cpuInfo else none }
  let prompt :=
    build_enhanced_prompt error_desc log_content error_type env.systemContext impact_level
      (some additional_context) triage_mode
  match env.modelResult with
  | .error e => .error (.modelFailure e)
  | .ok analysis =>
      .ok { error_type := error_type
            impact_level := impact_level
            additional_context := additional_context
            prompt := prompt
            analysis := analysis
            report :=
              { timestamp := env.timestamp
                error_description := error_desc
                error_type := error_type
                impact_level := impact_level
                analysis := analysis
                system_context := env.systemContext
                additional_context := additional_context
                docling_available := env.doclingAvailable
                docling_metadata := parsed_log_metadata
                error_patterns_found := error_patterns.length } }

/-- `perform_enhanced_rca`, before the outer `except Exception`
re-wrap. -/
def perform_enhanced_rca (env : Env) (error_desc : Str) (logfile_path : Option Str)
    (scan_system : Bool) (_hours_back : Nat) (triage_mode : Bool) : Except RcaErr RunResult :=
  match gatherLog env logfile_path scan_system with
  | .error e => .error e
  | .ok (log_content, meta, pats) =>
      analyzeAndReport env error_desc triage_mode log_content meta pats

/-- The `except Exception as e: raise Exception(f"Failed to get response
from model: {e}")` handler wrapping the whole `try` block: every raised
exception — the missing-file one included — reaches the caller wrapped
in this message. -/
def perform_enhanced_rca_wrapped (env : Env) (error_desc : Str) (logfile_path : Option Str)
    (scan_system : Bool) (hours_back : Nat) (triage_mode : Bool) : Except Str RunResult :=
  match perform_enhanced_rca env error_desc logfile_path scan_system hours_back triage_mode with
  | .ok r => .ok r
  | .error e => .error (str ("Failed to get response from model: ") ++ e.message)

/-- Control reaches the `scanner.classify_error_type` call (line 358)
exactly when the input stage did not raise. -/
def classifier_invoked (env : Env) (logfile_path : Option Str) (scan_system : Bool) : Bool :=
  (gatherLog env logfile_path scan_system).isOk

/-! ## Report persistence (`ResourceMonitor.save_report`)

`save_report` writes the report with `json.dump(report_data, f, indent=2)`.
The serialiser below reproduces that text: `ensure_ascii` escaping of
strings (short escapes, `\uXXXX` for other control and non-ASCII
characters, surrogate pairs above the BMP, lower-case hex), decimal
integers, `true`/`false`, and the `indent=2` layout (members one per
line, `": "` after keys, `,` separators, closing bracket on its own
line). -/

/-- Hexadecimal digit `d < 16`, lower case as Python formats `%04x`. -/
def hexDigitChar (d : Nat) : Char :=
  if d < 10 then Char.ofNat (48 + d) else Char.ofNat (87 + d)

/-- Four-digit hex rendering of `n < 65536`. -/
def hex4 (n : Nat) : Str :=
  [hexDigitChar (n / 4096 % 16), hexDigitChar (n / 256 % 16),
   hexDigitChar (n / 16 % 16), hexDigitChar (n % 16)]

/-- `ensure_ascii` escaping of one character, following
`json.encoder.py_encode_basestring_ascii`: the named short escapes,
literal ASCII `0x20`-`0x7e`, `\uXXXX` otherwise, with surrogate pairs
for code points above `0xffff`. -/
def escapeChar (c : Char) : Str :=
  if c = '"' then ['\\', '"']
  else if c = '\\' then ['\\', '\\']
  else if c = '\n' then ['\\', 'n']
  else if c = '\t' then ['\\', 't']
  else if c = '\r' then ['\\', 'r']
  else if c.toNat = 8 then ['\\', 'b']
  else if c.toNat = 12 then ['\\', 'f']
  else if c.toNat < 32 ∨ (126 < c.toNat ∧ c.toNat < 65536) then
    '\\' :: 'u' :: hex4 c.toNat
  else if 65536 ≤ c.toNat then
    let n := c.toNat - 65536
    ('\\' :: 'u' :: hex4 (55296 + n / 1024)) ++ ('\\' :: 'u' :: hex4 (56320 + n % 1024))
  else [c]

/-- The escaped body of a JSON string. -/
def stringEsc (s : Str) : Str := (s.map escapeChar).flatten

/-- A JSON string literal: quoted escaped body. -/
def renderString (s : Str) : Str := '"' :: (stringEsc s ++ ['"'])

/-- The `indent=2` prefix at nesting depth `level`. -/
def jsonIndent (level : Nat) : Str := List.replicate (2 * level) ' '

mutual

/-- `json.dump(..., indent=2)` of a value at nesting depth `level`
(the top-level call uses `level = 0`). -/
def render : Json → Nat → Str
  | .str s, _ => renderString s
  | .nat n, _ => natDigits n
  | .bool true, _ => str ("true")
  | .bool false, _ => str ("false")
  | .arr [], _ => '[' :: [']']
  | .arr (x :: xs), level => '[' :: '\n' :: renderItems (x :: xs) level
  | .obj [], _ => '{' :: ['}']
  | .obj (kv :: kvs), level => '{' :: '\n' :: renderMembers (kv :: kvs) level

/-- The lines of a non-empty array body, from the first item through the
closing bracket. -/
def renderItems : List Json → Nat → Str
  | [], level => '\n' :: (jsonIndent level ++ [']'])
  | x :: xs, level =>
      jsonIndent (level + 1) ++ render x (level + 1) ++ renderItemsSep xs level

/-- After one array item: either the separator and the following items,
or the closing bracket on its own line. -/
def renderItemsSep : List Json → Nat → Str
  | [], level => '\n' :: (jsonIndent level ++ [']'])
  | y :: ys, level =>
      ',' :: '\n' ::
        (jsonIndent (level + 1) ++ render y (level + 1) ++ renderItemsSep ys level)

/-- The lines of a non-empty object body, from the first member through
the closing brace. -/
def renderMembers : List (Str × Json) → Nat → Str
  | [], level => '\n' :: (jsonIndent level ++ ['}'])
  | (k, v) :: kvs, level =>
      jsonIndent (level + 1) ++ renderString k ++ ':' :: ' ' :: render v (level + 1)
        ++ renderMembersSep kvs level

/-- After one object member: either the separator and the following
members, or the closing brace on its own line. -/
def renderMembersSep : List (Str × Json) → Nat → Str
  | [], level => '\n' :: (jsonIndent level ++ ['}'])
  | (k, v) :: kvs, level =>
      ',' :: '\n' ::
        (jsonIndent (level + 1) ++ renderString k ++ ':' :: ' ' :: render v (level + 1)
          ++ renderMembersSep kvs level)

end

/-- The exact text `ResourceMonitor.save_report` writes for a report. -/
def save_report_text (r : Report) : Str := render (reportJson r) 0

mutual

/-- Fuel bound for the parser on a value. -/
def jfuel : Json → Nat
  | .str _ => 1
  | .nat _ => 1
  | .bool _ => 1
  | .arr xs => 1 + jfuelItems xs
  | .obj kvs => 1 + jfuelMembers kvs

/-- Fuel bound for the parser on an array body. -/
def jfuelItems : List Json → Nat
  | [] => 1
  | x :: xs => 1 + jfuel x + jfuelItems xs

/-- Fuel bound for the parser on an object body. -/
def jfuelMembers : List (Str × Json) → Nat
  | [] => 1
  | kv :: kvs => 1 + jfuel kv.2 + jfuelMembers kvs

end

/-! The reader below re-parses the persisted text.

Modelled from the spec: re-reading / deserialising a persisted report
(spec section 8, the round-trip property; the repository only writes
reports — `json.dump` in `save_report` — and never reads one back, so
the reader is Python's `json.load` as the spec's persistence format
implies).  It accepts the subset of JSON the reports inhabit: strings
with the standard escapes (surrogate pairs combined, as `json.load`
does), unsigned decimal integers, booleans, arrays and objects, with
whitespace wherever the `indent=2` writer puts it. -/

/-- Value of one hexadecimal digit. -/
def hexVal (c : Char) : Option Nat :=
  if '0' ≤ c ∧ c ≤ '9' then some (c.toNat - 48)
  else if 'a' ≤ c ∧ c ≤ 'f' then some (c.toNat - 87)
  else if 'A' ≤ c ∧ c ≤ 'F' then some (c.toNat - 55)
  else none

/-- Read four hex digits. -/
def read4Hex : Str → Option (Nat × Str)
  | a :: b :: c :: d :: r =>
      match hexVal a, hexVal b, hexVal c, hexVal d with
      | some va, some vb, some vc, some vd =>
          some (va * 4096 + vb * 256 + vc * 16 + vd, r)
      | _, _, _, _ => none
  | _ => none

/-- Read a `\uXXXX` payload, combining a surrogate pair into one code
point as `json.load` does.  Unpaired surrogates are rejected (they are
not Unicode scalar values; the writer never produces them). -/
def readU (r : Str) : Option (Char × Str) :=
  match read4Hex r with
  | none => none
  | some (v, r2) =>
      if 55296 ≤ v ∧ v ≤ 56319 then
        match r2 with
        | '\\' :: 'u' :: r3 =>
            match read4Hex r3 with
            | some (w, r4) =>
                if 56320 ≤ w ∧ w ≤ 57343 then
                  some (Char.ofNat (65536 + (v - 55296) * 1024 + (w - 56320)), r4)
                else none
            | none => none
        | _ => none
      else if 56320 ≤ v ∧ v ≤ 57343 then none
      else some (Char.ofNat v, r2)

/-- Read the escape following a backslash. -/
def readEscape : Str → Option (Char × Str)
  | '"' :: r => some ('"', r)
  | '\\' :: r => some ('\\', r)
  | '/' :: r => some ('/', r)
  | 'b' :: r => some (Char.ofNat 8, r)
  | 'f' :: r => some (Char.ofNat 12, r)
  | 'n' :: r => some ('\n', r)
  | 'r' :: r => some ('\r', r)
  | 't' :: r => some ('\t', r)
  | 'u' :: r => readU r
  | _ => none

/-- Read a string body up to the closing quote.  The fuel decreases once
per decoded character; callers pass the input length, which suffices. -/
def parseStringBody : Nat → Str → Option (Str × Str)
  | 0, _ => none
  | _ + 1, [] => none
  | fuel + 1, c :: r =>
      if c = '"' then some ([], r)
      else if c = '\\' then
        match readEscape r with
        | none => none
        | some (d, r2) => (parseStringBody fuel r2).map (fun p => (d :: p.1, p.2))
      else (parseStringBody fuel r).map (fun p => (c :: p.1, p.2))

/-- Decimal value of a digit character. -/
def digitVal (c : Char) : Nat := c.toNat - 48

/-- Consume a run of digits, accumulating their value. -/
def parseNatAux : Str → Nat → (Nat × Str)
  | [], acc => (acc, [])
  | c :: r, acc => if c.isDigit then parseNatAux r (acc * 10 + digitVal c) else (acc, c :: r)

/-- JSON whitespace. -/
def isJsonWs (c : Char) : Bool := c = ' ' || c = '\t' || c = '\n' || c = '\r'

/-- Skip whitespace. -/
def skipWs (s : Str) : Str := s.dropWhile isJsonWs

mutual

/-- Parse one JSON value, returning it with the unconsumed rest. -/
def parseValue : Nat → Str → Option (Json × Str)
  | 0, _ => none
  | fuel + 1, s =>
      match skipWs s with
      | [] => none
      | c :: r =>
          if c = '"' then (parseStringBody r.length r).map (fun p => (Json.str p.1, p.2))
          else if c = '{' then
            match skipWs r with
            | [] => none
            | c2 :: r2 =>
                if c2 = '}' then some (Json.obj [], r2)
                else (parseMembers fuel r).map (fun p => (Json.obj p.1, p.2))
          else if c = '[' then
            match skipWs r with
            | [] => none
            | c2 :: r2 =>
                if c2 = ']' then some (Json.arr [], r2)
                else (parseItems fuel r).map (fun p => (Json.arr p.1, p.2))
          else if c = 't' then
            match r with
            | 'r' :: 'u' :: 'e' :: r2 => some (Json.bool true, r2)
            | _ => none
          else if c = 'f' then
            match r with
            | 'a' :: 'l' :: 's' :: 'e' :: r2 => some (Json.bool false, r2)
            | _ => none
          else if c.isDigit then
            some ((fun p => (Json.nat p.1, p.2)) (parseNatAux r (digitVal c)))
          else none

/-- Parse the members of a non-empty object body through the closing
brace. -/
def parseMembers : Nat → Str → Option (List (Str × Json) × Str)
  | 0, _ => none
  | fuel + 1, s =>
      match skipWs s with
      | [] => none
      | c :: r =>
          if c = '"' then
            match parseStringBody r.length r with
            | none => none
            | some (k, r2) =>
                match skipWs r2 with
                | [] => none
                | c3 :: r3 =>
                    if c3 = ':' then
                      match parseValue fuel r3 with
                      | none => none
                      | some (v, r4) =>
                          match skipWs r4 with
                          | [] => none
                          | c5 :: r5 =>
                              if c5 = ',' then
                                (parseMembers fuel r5).map (fun p => ((k, v) :: p.1, p.2))
                              else if c5 = '}' then some ([(k, v)], r5)
                              else none
                    else none
          else none

/-- Parse the items of a non-empty array body through the closing
bracket. -/
def parseItems : Nat → Str → Option (List Json × Str)
  | 0, _ => none
  | fuel + 1, s =>
      match parseValue fuel s with
      | none => none
      | some (v, r) =>
          match skipWs r with
          | [] => none
          | c2 :: r2 =>
              if c2 = ',' then (parseItems fuel r2).map (fun p => (v :: p.1, p.2))
              else if c2 = ']' then some ([v], r2)
              else none

end

/-- Does the text not start with a digit?  (A decimal literal followed
by such a text parses back exactly.) -/
def headNotDigit : Str → Bool
  | [] => true
  | c :: _ => !c.isDigit

/-- Modelled from the spec: `json.load` on a persisted document — parse
one value and require only whitespace after it. -/
def json_loads (s : Str) : Option Json :=
  match parseValue (s.length + 1) s with
  | some (v, r) => if (skipWs r).isEmpty then some v else none
  | none => none

/-! ## Statement vocabulary -/

/-- `t` occurs verbatim as a contiguous substring of `s`. -/
def Appears (s t : Str) : Prop := ∃ a b, s = a ++ t ++ b

/-- The given texts all occur in `s`, in the given order, without
overlapping. -/
def AppearsInOrder (s : Str) : List Str → Prop
  | [] => True
  | t :: ts => ∃ a b, s = a ++ t ++ b ∧ AppearsInOrder b ts

/-- The seven fixed report-outline section headers, in prompt order. -/
def sectionHeaders : List Str :=
  [str ("## Root Cause Analysis"), str ("## Technical Evidence"), str ("## Impact Assessment"),
   str ("## Immediate Fix"), str ("## Long-term Prevention"), str ("## Advanced Diagnostics"),
   str ("## Security Considerations")]

/-- Projection of a successful run. -/
def okResult : Except RcaErr RunResult → Option RunResult
  | .ok r => some r
  | .error _ => none

/-- The maximum of the per-category scores. -/
def maxCategoryScore (d l : Str) : Nat :=
  ((categoryScores d l).map Prod.snd).foldl Nat.max 0

/-- A concrete quiet environment: no file exists, nothing found by the
system scan, every probe answers, the model replies. -/
def env0 : Env :=
  { pathExists := fun _ => false
    parseLogFile := fun _ =>
      { error? := none, content := [], metadata := Json.obj [],
        parsing_method := str ("basic"), errorPatterns := [] }
    scanFound := []
    doclingAvailable := false
    systemContext := str ("os_info: test")
    containerHealth := Json.obj [(str ("runtime"), Json.str (str ("podman")))]
    topInfo := Json.obj [(str ("processes"), Json.arr [])]
    cpuInfo := Json.obj [(str ("processors"), Json.arr [])]
    modelResult := .ok (str ("analysis text"))
    timestamp := str ("2026-01-01T00:00:00") }

/-! # Theorems -/

theorem le_foldl_max (a : Nat) (l : List Nat) : a ≤ l.foldl Nat.max a := by
  induction l generalizing a with
  | nil => exact Nat.le_refl a
  | cons x xs ih => exact Nat.le_trans (Nat.le_max_left a x) (ih (Nat.max a x))

/-- Python's `max(items, key=...)` keeps the earliest item, replacing it
only on a strictly larger key: the fold returns the first entry whose
score equals the maximum. -/
theorem foldl_pymax_find (l : List (Str × Nat)) (b : Str × Nat) :
    (b :: l).find? (fun x => x.2 == (l.map Prod.snd).foldl Nat.max b.2)
      = some (l.foldl (fun best y => if best.2 < y.2 then y else best) b) := by
  induction l generalizing b with
  | nil => simp
  | cons y ys ih =>
      have hM2 : ((y :: ys).map Prod.snd).foldl Nat.max b.2
          = (ys.map Prod.snd).foldl Nat.max (if b.2 < y.2 then y else b).2 := by
        rw [List.map_cons, List.foldl_cons]
        congr 1
        by_cases h : b.2 < y.2
        · rw [if_pos h]
          exact Nat.max_eq_right (Nat.le_of_lt h)
        · rw [if_neg h]
          exact Nat.max_eq_left (Nat.le_of_not_lt h)
      rw [hM2]
      simp only [List.foldl_cons]
      by_cases h : b.2 < y.2
      · simp only [if_pos h]
        have hy := le_foldl_max y.2 (ys.map Prod.snd)
        rw [List.find?_cons_of_neg _ (by simp only [beq_iff_eq]; omega)]
        exact ih y
      · simp only [if_neg h]
        have hb := le_foldl_max b.2 (ys.map Prod.snd)
        by_cases hbM : b.2 = (ys.map Prod.snd).foldl Nat.max b.2
        · rw [List.find?_cons_of_pos _ (by simp only [beq_iff_eq]; exact hbM)]
          have hIH := ih b
          rw [List.find?_cons_of_pos _ (by simp only [beq_iff_eq]; exact hbM)] at hIH
          exact hIH
        · rw [List.find?_cons_of_neg _ (by simp only [beq_iff_eq]; exact hbM),
            List.find?_cons_of_neg _ (by simp only [beq_iff_eq]; omega)]
          have hIH := ih b
          rw [List.find?_cons_of_neg _ (by simp only [beq_iff_eq]; exact hbM)] at hIH
          exact hIH

/-- When nothing beats the accumulator, the fold keeps it. -/
theorem foldl_pymax_of_le (l : List (Str × Nat)) (b : Str × Nat)
    (h : ∀ y ∈ l, y.2 ≤ b.2) :
    l.foldl (fun best y => if best.2 < y.2 then y else best) b = b := by
  induction l generalizing b with
  | nil => rfl
  | cons y ys ih =>
      have h1 : ¬ b.2 < y.2 := by
        have := h y (by simp)
        omega
      rw [List.foldl_cons, if_neg h1]
      exact ih b (fun z hz => h z (by simp [hz]))

/-- C4.  `classify_error_type` is a pure function of its two text
arguments (so repeated calls agree by reflexivity), and the category it
returns is exactly the first entry of the score table — lowest index in
the fixed `error_patterns` ordering — whose score equals the maximal
score, which settles every tie deterministically. -/
theorem classify_error_type_deterministic_tiebreak (d l : Str) :
    ((categoryScores d l).find? (fun x => x.2 == maxCategoryScore d l)).map Prod.fst
      = some (classify_error_type d l) := by
  have hne : categoryScores d l ≠ [] := by simp [categoryScores, error_patterns]
  obtain ⟨x, xs, hx⟩ := List.exists_cons_of_ne_nil hne
  have hmax : maxCategoryScore d l = (xs.map Prod.snd).foldl Nat.max x.2 := by
    rw [maxCategoryScore, hx]
    simp [Nat.zero_max]
  rw [hx, hmax, foldl_pymax_find xs x]
  simp [classify_error_type, hx]

/-- C10.  The score dict always has the seven pattern-table categories,
so `classify_error_type` always returns one of them; the `application`
fallback is dead code and `hardware`/`security` are unreachable too. -/
theorem classify_error_type_range (d l : Str) :
    categoryScores d l ≠ [] ∧
    classify_error_type d l ∈
      [SystemErrorTypes.KERNEL, SystemErrorTypes.SELINUX, SystemErrorTypes.JAVA,
       SystemErrorTypes.SYSTEMD, SystemErrorTypes.NETWORK, SystemErrorTypes.BOOT,
       SystemErrorTypes.CONTAINER] ∧
    classify_error_type d l ≠ SystemErrorTypes.HARDWARE ∧
    classify_error_type d l ≠ SystemErrorTypes.SECURITY ∧
    classify_error_type d l ≠ SystemErrorTypes.APPLICATION := by
  have hne : categoryScores d l ≠ [] := by simp [categoryScores, error_patterns]
  have hfind := classify_error_type_deterministic_tiebreak d l
  cases hf : (categoryScores d l).find? (fun x => x.2 == maxCategoryScore d l) with
  | none => rw [hf] at hfind; cases hfind
  | some rr =>
      rw [hf] at hfind
      have hr1 : rr.1 = classify_error_type d l := by
        simpa using hfind
      have hmem : rr ∈ categoryScores d l := List.mem_of_find?_eq_some hf
      have hmem1 : classify_error_type d l ∈ (categoryScores d l).map Prod.fst := by
        rw [← hr1]
        exact List.mem_map_of_mem Prod.fst hmem
      have hnames : (categoryScores d l).map Prod.fst
          = [SystemErrorTypes.KERNEL, SystemErrorTypes.SELINUX, SystemErrorTypes.JAVA,
             SystemErrorTypes.SYSTEMD, SystemErrorTypes.NETWORK, SystemErrorTypes.BOOT,
             SystemErrorTypes.CONTAINER] := by
        simp [categoryScores, error_patterns]
      rw [hnames] at hmem1
      have hall : ∀ x ∈ [SystemErrorTypes.KERNEL, SystemErrorTypes.SELINUX,
          SystemErrorTypes.JAVA, SystemErrorTypes.SYSTEMD, SystemErrorTypes.NETWORK,
          SystemErrorTypes.BOOT, SystemErrorTypes.CONTAINER],
          x ≠ SystemErrorTypes.HARDWARE ∧ x ≠ SystemErrorTypes.SECURITY ∧
          x ≠ SystemErrorTypes.APPLICATION := by decide
      exact ⟨hne, hmem1, (hall _ hmem1).1, (hall _ hmem1).2.1, (hall _ hmem1).2.2⟩

/-- C1 (amended).  When every pattern of every category finds zero
matches, all seven scores are zero; Python's `max` then keeps the first
table entry, so the classifier returns `kernel`, not `application`. -/
theorem classify_error_type_all_zero (d l : Str)
    (h : ∀ ep ∈ error_patterns, ∀ p ∈ ep.2, reFindallCount p (combinedText d l) = 0) :
    classify_error_type d l = SystemErrorTypes.KERNEL := by
  have hz : ∀ x ∈ categoryScores d l, x.2 = 0 := by
    intro x hx
    simp only [categoryScores, List.mem_map] at hx
    obtain ⟨ep, hep, rfl⟩ := hx
    apply List.sum_eq_zero
    intro n hn
    rw [List.mem_map] at hn
    obtain ⟨p, hp, rfl⟩ := hn
    exact h ep hep p hp
  have hne : categoryScores d l ≠ [] := by simp [categoryScores, error_patterns]
  obtain ⟨x, xs, hx⟩ := List.exists_cons_of_ne_nil hne
  have hh : (categoryScores d l).head? = some x := by rw [hx]; rfl
  have hx1 : x.1 = SystemErrorTypes.KERNEL := by
    simp [categoryScores, error_patterns] at hh
    rw [← hh]
  have hle : ∀ y ∈ xs, y.2 ≤ x.2 := by
    intro y hy
    have h1 : y.2 = 0 := hz y (by rw [hx]; exact List.mem_cons_of_mem _ hy)
    omega
  calc classify_error_type d l = (xs.foldl (fun best y => if best.2 < y.2 then y else best) x).1 := by
        simp [classify_error_type, hx]
    _ = x.1 := by rw [foldl_pymax_of_le xs x hle]
    _ = SystemErrorTypes.KERNEL := hx1

/-- C1 (counterexample).  The empty description and log give zero
matches in every category, yet the classifier does not return
`application`: the score dict is non-empty, so the fallback never
fires. -/
theorem classify_all_zero_not_application :
    (∀ ep ∈ error_patterns, ∀ p ∈ ep.2, reFindallCount p (combinedText [] []) = 0) ∧
    classify_error_type [] [] ≠ SystemErrorTypes.APPLICATION := by
  constructor
  · decide
  · decide

/-- C1 (witness): the amended theorem applied at the empty input. -/
theorem classify_all_zero_witness :
    classify_error_type [] [] = SystemErrorTypes.KERNEL :=
  classify_error_type_all_zero [] [] (by decide)

/-- C5.  If any critical-tier pattern matches, `assess_impact` answers
`critical`, whatever the lower tiers contain: the severity loop tests
the critical tier first and returns on the first hit. -/
theorem assess_impact_critical_first (d l : Str)
    (h : ∃ li ∈ impact_indicators, li.1 = ImpactLevel.CRITICAL ∧
          ∃ p ∈ li.2, reSearch p (combinedText d l) = true) :
    assess_impact d l = ImpactLevel.CRITICAL := by
  obtain ⟨li, hmem, hname, p, hp, hs⟩ := h
  have hany : li.2.any (fun q => reSearch q (combinedText d l)) = true :=
    List.any_eq_true.mpr ⟨p, hp, hs⟩
  fin_cases hmem
  · unfold assess_impact
    simp only [impact_indicators]
    rw [List.find?_cons_of_pos _ (by simpa using hany)]
  · exact absurd hname (by decide)
  · exact absurd hname (by decide)
  · exact absurd hname (by decide)

/-- C5 (witness): a text with critical (`panic`), high
(`authentication failed`), medium (`warning`) and low (`info`)
indicators still assesses `critical`. -/
theorem assess_impact_critical_first_witness :
    assess_impact (str ("warning: kernel panic, authentication failed, info")) []
      = ImpactLevel.CRITICAL :=
  assess_impact_critical_first _ _
    ⟨impact_indicators.get ⟨0, by decide⟩, by decide, by decide, by decide⟩

/-- C6.  `assess_impact` answers `info` exactly when no pattern of any
tier matches: the severity loop returns a tier name on the first hit,
and every tier name differs from `info`. -/
theorem assess_impact_info_iff (d l : Str) :
    assess_impact d l = ImpactLevel.INFO ↔
      ∀ li ∈ impact_indicators, ∀ p ∈ li.2, reSearch p (combinedText d l) = false := by
  have hDef : assess_impact d l
      = (match impact_indicators.find?
            (fun li => li.2.any (fun p => reSearch p (combinedText d l))) with
         | some li => li.1
         | none => ImpactLevel.INFO) := rfl
  rw [hDef]
  cases hf : impact_indicators.find? (fun li => li.2.any (fun p => reSearch p (combinedText d l))) with
  | none =>
      constructor
      · intro _ li hli p hp
        have hx := List.find?_eq_none.mp hf li hli
        simp only [List.any_eq_true, not_exists, not_and, Bool.not_eq_true] at hx
        exact hx p hp
      · intro _
        rfl
  | some li =>
      have hp := List.find?_some hf
      have hm := List.mem_of_find?_eq_some hf
      have hname : li.1 ≠ ImpactLevel.INFO := by
        fin_cases hm <;> decide
      show li.1 = ImpactLevel.INFO ↔ _
      constructor
      · intro heq
        exact absurd heq hname
      · intro hall
        exfalso
        rw [List.any_eq_true] at hp
        obtain ⟨p, hp2, hs⟩ := hp
        have hfalse := hall li hm p hp2
        rw [hfalse] at hs
        cases hs

/-- C3 (amended).  With an explicit non-empty log path that does not
exist and the system-scan flag clear, the run raises the missing-file
error before classification: the classifier is never invoked.  (The
outer handler re-wraps the exception, see
`perform_enhanced_rca_wrapped`.) -/
theorem perform_missing_file_no_scan (env : Env) (d p : Str) (hb : Nat) (tm : Bool)
    (hne : p ≠ []) (hex : env.pathExists p = false) :
    perform_enhanced_rca env d (some p) false hb tm
        = .error (.fileNotFound (str ("Log file not found: ") ++ p)) ∧
    classifier_invoked env (some p) false = false := by
  have hg : gatherLog env (some p) false
      = .error (.fileNotFound (str ("Log file not found: ") ++ p)) := by
    unfold gatherLog pyTruthyPath
    simp [hex, hne]
  constructor
  · unfold perform_enhanced_rca
    rw [hg]
  · unfold classifier_invoked
    rw [hg]
    rfl

/-- C3 (witness): the amended theorem at a concrete environment where
`/no/such/file` does not exist. -/
theorem perform_missing_file_no_scan_witness :
    perform_enhanced_rca env0 (str ("x")) (some (str ("/no/such/file"))) false 24 false
        = .error (.fileNotFound (str ("Log file not found: ") ++ str ("/no/such/file"))) ∧
    classifier_invoked env0 (some (str ("/no/such/file"))) false = false :=
  perform_missing_file_no_scan env0 (str ("x")) (str ("/no/such/file")) 24 false
    (by decide) rfl

/-- C3 (counterexample).  With the system-scan flag also set, the same
nonexistent path is silently ignored: the run does not fail with a
missing-file error — it completes — and the classifier is invoked. -/
theorem perform_missing_file_scan_proceeds :
    (perform_enhanced_rca env0 (str ("x")) (some (str ("/no/such/file"))) true 24 false).isOk
        = true ∧
    classifier_invoked env0 (some (str ("/no/such/file"))) true = true :=
  ⟨rfl, rfl⟩

/-- C7.  In every completing run, the additional context holds the
container-health data iff the classified category is `container`, and
holds the resource snapshot (process usage and CPU info) iff the
impact is `critical` or `high` or the triage flag is set. -/
theorem context_gathering_policy (env : Env) (d : Str) (lp : Option Str) (ss : Bool)
    (hb : Nat) (tm : Bool) (r : RunResult)
    (h : perform_enhanced_rca env d lp ss hb tm = .ok r) :
    (r.additional_context.container_health.isSome = true ↔
        r.error_type = SystemErrorTypes.CONTAINER) ∧
    ((r.additional_context.resource_usage.isSome = true ∧
        r.additional_context.cpu_info.isSome = true) ↔
      (r.impact_level = ImpactLevel.CRITICAL ∨ r.impact_level = ImpactLevel.HIGH ∨
        tm = true)) := by
  unfold perform_enhanced_rca at h
  cases hg : gatherLog env lp ss with
  | error e =>
      rw [hg] at h
      cases h
  | ok t =>
      obtain ⟨lc, meta, pats⟩ := t
      rw [hg] at h
      unfold analyzeAndReport at h
      cases hm : env.modelResult with
      | error e =>
          rw [hm] at h
          simp at h
      | ok a =>
          rw [hm] at h
          simp only [Except.ok.injEq] at h
          subst h
          constructor
          · by_cases hc : classify_error_type d lc = SystemErrorTypes.CONTAINER <;>
              simp [hc]
          · by_cases hcond : (assess_impact d lc = ImpactLevel.CRITICAL ∨
                assess_impact d lc = ImpactLevel.HIGH ∨ tm = true) <;>
              simp [hcond]

/-- C7 (witness): a quiet quick-mode run completes; its context obeys
both gathering rules. -/
theorem context_gathering_policy_witness :
    (match perform_enhanced_rca env0 (str ("hello")) none false 24 false with
     | .ok r =>
        (r.additional_context.container_health.isSome = true ↔
            r.error_type = SystemErrorTypes.CONTAINER) ∧
        ((r.additional_context.resource_usage.isSome = true ∧
            r.additional_context.cpu_info.isSome = true) ↔
          (r.impact_level = ImpactLevel.CRITICAL ∨ r.impact_level = ImpactLevel.HIGH ∨
            False ∨ (false : Bool) = true))
     | .error _ => False) := by
  cases h : perform_enhanced_rca env0 (str ("hello")) none false 24 false with
  | ok r =>
      have hres := context_gathering_policy env0 (str ("hello")) none false 24 false r h
      refine ⟨hres.1, ?_⟩
      rw [hres.2]
      constructor
      · intro hc
        exact Or.elim hc Or.inl (fun hc2 => Or.inr (Or.elim hc2 Or.inl (fun hb => Or.inr (Or.inr hb))))
      · intro hc
        rcases hc with hc | hc | hc | hc
        · exact Or.inl hc
        · exact Or.inr (Or.inl hc)
        · exact absurd hc (by simp)
        · exact Or.inr (Or.inr hc)
  | error e =>
      have hOk : (perform_enhanced_rca env0 (str ("hello")) none false 24 false).isOk = true := rfl
      rw [h] at hOk
      cases hOk

set_option maxRecDepth 100000

/-- C2 (code behaviour at the failing input).  With description
`Failed to start apache2.service`, no log file and no scan, the pattern
tables score `container` 4 (the bare `error`/`failed` alternation
branches of the container patterns match the sentinel text) against
`systemd` 1, so the run classifies CONTAINER — not `systemd` — with
impact `high`, and gathers container health as well as the resource
snapshot. -/
theorem apache2_scenario_classifies_container :
    classify_error_type (str ("Failed to start apache2.service")) quickModeLog
        = SystemErrorTypes.CONTAINER ∧
    assess_impact (str ("Failed to start apache2.service")) quickModeLog = ImpactLevel.HIGH ∧
    (okResult (perform_enhanced_rca env0 (str ("Failed to start apache2.service"))
        none false 24 false)).map
        (fun r => (r.error_type, r.impact_level,
          r.additional_context.container_health.isSome,
          r.additional_context.resource_usage.isSome))
      = some (SystemErrorTypes.CONTAINER, ImpactLevel.HIGH, true, true) := by
  refine ⟨by decide, by decide, by decide⟩

theorem appears_append_left (a s t : Str) (h : Appears s t) : Appears (a ++ s) t := by
  obtain ⟨x, b, he⟩ := h
  refine ⟨a ++ x, b, ?_⟩
  rw [he]
  simp [List.append_assoc]

theorem appearsInOrder_nil (s : Str) : AppearsInOrder s [] := trivial

theorem appearsInOrder_cons (a t rest : Str) (ts : List Str)
    (h : AppearsInOrder rest ts) : AppearsInOrder (a ++ (t ++ rest)) (t :: ts) :=
  ⟨a, rest, (List.append_assoc a t rest).symm, h⟩

theorem appearsInOrder_append_left (a s : Str) (ts : List Str)
    (h : AppearsInOrder s ts) : AppearsInOrder (a ++ s) ts := by
  cases ts with
  | nil => trivial
  | cons t ts =>
      obtain ⟨x, b, he, h2⟩ := h
      refine ⟨a ++ x, b, ?_, h2⟩
      rw [he]
      simp [List.append_assoc]

/-- The fixed prompt tail carries the seven section headers in order. -/
theorem promptOutline_headers : AppearsInOrder promptOutline sectionHeaders := by
  simp only [promptOutline, sectionHeaders, List.append_assoc]
  exact appearsInOrder_cons _ _ _ _ (appearsInOrder_cons _ _ _ _ (appearsInOrder_cons _ _ _ _
    (appearsInOrder_cons _ _ _ _ (appearsInOrder_cons _ _ _ _ (appearsInOrder_cons _ _ _ _
      (appearsInOrder_cons _ _ _ _ (appearsInOrder_nil _)))))))

/-- C8.  Whatever the category, impact, triage flag and optional
context blocks, the composed prompt contains the original error
description verbatim and the seven fixed section headers in their fixed
order. -/
theorem build_enhanced_prompt_structure (d log et sys imp : Str)
    (ac : Option AddCtx) (tm : Bool) :
    Appears (build_enhanced_prompt d log et sys imp ac tm) d ∧
    AppearsInOrder (build_enhanced_prompt d log et sys imp ac tm) sectionHeaders := by
  constructor
  · simp only [build_enhanced_prompt, List.append_assoc]
    apply appears_append_left
    apply appears_append_left
    apply appears_append_left
    apply appears_append_left
    apply appears_append_left
    exact ⟨[], _, rfl⟩
  · simp only [build_enhanced_prompt]
    apply appearsInOrder_append_left
    exact promptOutline_headers

/-! ### Round-trip of the persisted report (towards C9) -/

set_option maxHeartbeats 1000000

theorem char_toNat_valid (c : Char) :
    c.toNat < 55296 ∨ (57343 < c.toNat ∧ c.toNat < 1114112) := by
  rcases c.valid with h | ⟨h1, h2⟩
  · left
    exact UInt32.toNat_lt_of_lt (by decide) h
  · right
    exact ⟨UInt32.lt_toNat_of_lt (by decide) h1, UInt32.toNat_lt_of_lt (by decide) h2⟩

theorem hexVal_hexDigitChar (d : Nat) (h : d < 16) :
    hexVal (hexDigitChar d) = some d := by
  interval_cases d <;> decide

theorem read4Hex_hex4 (v : Nat) (h : v < 65536) (r : Str) :
    read4Hex (hex4 v ++ r) = some (v, r) := by
  have e : hex4 v ++ r
      = hexDigitChar (v / 4096 % 16) :: hexDigitChar (v / 256 % 16)
        :: hexDigitChar (v / 16 % 16) :: hexDigitChar (v % 16) :: r := by
    simp [hex4]
  rw [e]
  simp only [read4Hex,
    hexVal_hexDigitChar _ (Nat.mod_lt _ (by omega)),
    hexVal_hexDigitChar _ (Nat.mod_lt _ (by omega))]
  congr 1
  rw [Prod.mk.injEq]
  refine ⟨?_, rfl⟩
  omega

theorem escapeChar_length_pos (c : Char) : 1 ≤ (escapeChar c).length := by
  unfold escapeChar
  split_ifs <;> simp [hex4]

theorem length_le_stringEsc (s : Str) : s.length ≤ (stringEsc s).length := by
  induction s with
  | nil => simp [stringEsc]
  | cons c cs ih =>
      have h1 := escapeChar_length_pos c
      simp only [stringEsc, List.map_cons, List.flatten_cons, List.length_cons,
        List.length_append]
      have : cs.length ≤ ((cs.map escapeChar).flatten).length := by
        simpa [stringEsc] using ih
      omega

/-- One parser step on a backslash: dispatch to the escape reader. -/
theorem psb_backslash_step (X : Str) (fuel : Nat) :
    parseStringBody (fuel + 1) ('\\' :: X)
      = (match readEscape X with
         | none => none
         | some (d, r2) => (parseStringBody fuel r2).map (fun p => (d :: p.1, p.2))) := by
  simp [parseStringBody]

theorem readEscape_u (Y : Str) : readEscape ('u' :: Y) = readU Y := rfl

/-- Reading back a non-surrogate `\uXXXX`. -/
theorem readU_bmp (v : Nat) (rest : Str)
    (h : v < 55296 ∨ (57343 < v ∧ v < 65536)) :
    readU (hex4 v ++ rest) = some (Char.ofNat v, rest) := by
  unfold readU
  rw [read4Hex_hex4 _ (by omega) _]
  simp only [if_neg (by omega : ¬ (55296 ≤ v ∧ v ≤ 56319)),
    if_neg (by omega : ¬ (56320 ≤ v ∧ v ≤ 57343))]

/-- Reading back a surrogate pair. -/
theorem readU_pair (hi lo : Nat) (rest : Str)
    (hh1 : 55296 ≤ hi) (hh2 : hi ≤ 56319) (hl1 : 56320 ≤ lo) (hl2 : lo ≤ 57343) :
    readU (hex4 hi ++ ('\\' :: 'u' :: (hex4 lo ++ rest)))
      = some (Char.ofNat (65536 + (hi - 55296) * 1024 + (lo - 56320)), rest) := by
  unfold readU
  rw [read4Hex_hex4 _ (by omega) _]
  simp only [if_pos (And.intro hh1 hh2)]
  rw [read4Hex_hex4 _ (by omega) _]
  simp only [if_pos (And.intro hl1 hl2)]

theorem psb_esc_quote (rest : Str) (fuel : Nat) :
    parseStringBody (fuel + 1) (['\\', '"'] ++ rest)
      = (parseStringBody fuel rest).map (fun p => ('"' :: p.1, p.2)) := by
  show parseStringBody (fuel + 1) ('\\' :: ('"' :: rest)) = _
  rw [psb_backslash_step]
  rfl

theorem psb_esc_backslash (rest : Str) (fuel : Nat) :
    parseStringBody (fuel + 1) (['\\', '\\'] ++ rest)
      = (parseStringBody fuel rest).map (fun p => ('\\' :: p.1, p.2)) := by
  show parseStringBody (fuel + 1) ('\\' :: ('\\' :: rest)) = _
  rw [psb_backslash_step]
  rfl

theorem psb_esc_nl (rest : Str) (fuel : Nat) :
    parseStringBody (fuel + 1) (['\\', 'n'] ++ rest)
      = (parseStringBody fuel rest).map (fun p => ('\n' :: p.1, p.2)) := by
  show parseStringBody (fuel + 1) ('\\' :: ('n' :: rest)) = _
  rw [psb_backslash_step]
  rfl

theorem psb_esc_tab (rest : Str) (fuel : Nat) :
    parseStringBody (fuel + 1) (['\\', 't'] ++ rest)
      = (parseStringBody fuel rest).map (fun p => ('\t' :: p.1, p.2)) := by
  show parseStringBody (fuel + 1) ('\\' :: ('t' :: rest)) = _
  rw [psb_backslash_step]
  rfl

theorem psb_esc_cr (rest : Str) (fuel : Nat) :
    parseStringBody (fuel + 1) (['\\', 'r'] ++ rest)
      = (parseStringBody fuel rest).map (fun p => ('\r' :: p.1, p.2)) := by
  show parseStringBody (fuel + 1) ('\\' :: ('r' :: rest)) = _
  rw [psb_backslash_step]
  rfl

theorem psb_esc_bs (c : Char) (rest : Str) (fuel : Nat) (h : c.toNat = 8) :
    parseStringBody (fuel + 1) (['\\', 'b'] ++ rest)
      = (parseStringBody fuel rest).map (fun p => (c :: p.1, p.2)) := by
  have hc : c = Char.ofNat 8 := by rw [← h, Char.ofNat_toNat]
  subst hc
  show parseStringBody (fuel + 1) ('\\' :: ('b' :: rest)) = _
  rw [psb_backslash_step]
  rfl

theorem psb_esc_ff (c : Char) (rest : Str) (fuel : Nat) (h : c.toNat = 12) :
    parseStringBody (fuel + 1) (['\\', 'f'] ++ rest)
      = (parseStringBody fuel rest).map (fun p => (c :: p.1, p.2)) := by
  have hc : c = Char.ofNat 12 := by rw [← h, Char.ofNat_toNat]
  subst hc
  show parseStringBody (fuel + 1) ('\\' :: ('f' :: rest)) = _
  rw [psb_backslash_step]
  rfl

theorem psb_esc_u (c : Char) (rest : Str) (fuel : Nat)
    (h8 : c.toNat < 32 ∨ (126 < c.toNat ∧ c.toNat < 65536)) :
    parseStringBody (fuel + 1) (('\\' :: 'u' :: hex4 c.toNat) ++ rest)
      = (parseStringBody fuel rest).map (fun p => (c :: p.1, p.2)) := by
  have hval := char_toNat_valid c
  have e : ('\\' :: 'u' :: hex4 c.toNat) ++ rest = '\\' :: 'u' :: (hex4 c.toNat ++ rest) := by
    simp
  rw [e, psb_backslash_step, readEscape_u, readU_bmp _ _ (by omega), Char.ofNat_toNat]

theorem psb_esc_pair (c : Char) (rest : Str) (fuel : Nat) (h9 : 65536 ≤ c.toNat) :
    parseStringBody (fuel + 1)
        ((('\\' :: 'u' :: hex4 (55296 + (c.toNat - 65536) / 1024))
          ++ ('\\' :: 'u' :: hex4 (56320 + (c.toNat - 65536) % 1024))) ++ rest)
      = (parseStringBody fuel rest).map (fun p => (c :: p.1, p.2)) := by
  have hval := char_toNat_valid c
  have hup : c.toNat < 1114112 := by omega
  have e : (('\\' :: 'u' :: hex4 (55296 + (c.toNat - 65536) / 1024))
        ++ ('\\' :: 'u' :: hex4 (56320 + (c.toNat - 65536) % 1024))) ++ rest
      = '\\' :: 'u' :: (hex4 (55296 + (c.toNat - 65536) / 1024)
          ++ ('\\' :: 'u' :: (hex4 (56320 + (c.toNat - 65536) % 1024) ++ rest))) := by
    simp
  rw [e, psb_backslash_step, readEscape_u,
    readU_pair _ _ _ (by omega) (by omega) (by omega) (by omega)]
  have harith : 65536 + (55296 + (c.toNat - 65536) / 1024 - 55296) * 1024
      + (56320 + (c.toNat - 65536) % 1024 - 56320) = c.toNat := by omega
  rw [harith, Char.ofNat_toNat]

theorem psb_esc_lit (c : Char) (rest : Str) (fuel : Nat)
    (h1 : ¬ c = '"') (h2 : ¬ c = '\\') :
    parseStringBody (fuel + 1) ([c] ++ rest)
      = (parseStringBody fuel rest).map (fun p => (c :: p.1, p.2)) := by
  simp [parseStringBody, h1, h2]

/-- Decoding one escaped character: the parser consumes exactly the
escape of `c` and produces `c`. -/
theorem parseStringBody_escapeChar (c : Char) (rest : Str) (fuel : Nat) :
    parseStringBody (fuel + 1) (escapeChar c ++ rest)
      = (parseStringBody fuel rest).map (fun p => (c :: p.1, p.2)) := by
  unfold escapeChar
  split_ifs with h1 h2 h3 h4 h5 h6 h7 h8 h9
  · subst h1
    exact psb_esc_quote rest fuel
  · subst h2
    exact psb_esc_backslash rest fuel
  · subst h3
    exact psb_esc_nl rest fuel
  · subst h4
    exact psb_esc_tab rest fuel
  · subst h5
    exact psb_esc_cr rest fuel
  · exact psb_esc_bs c rest fuel h6
  · exact psb_esc_ff c rest fuel h7
  · exact psb_esc_u c rest fuel h8
  · exact psb_esc_pair c rest fuel h9
  · exact psb_esc_lit c rest fuel h1 h2

/-- Round trip of an escaped string body through the parser. -/
theorem parseStringBody_stringEsc (s : Str) : ∀ (rest : Str) (fuel : Nat),
    s.length + 1 ≤ fuel →
    parseStringBody fuel (stringEsc s ++ ('"' :: rest)) = some (s, rest) := by
  induction s with
  | nil =>
      intro rest fuel h
      cases fuel with
      | zero => omega
      | succ f => simp [stringEsc, parseStringBody]
  | cons c cs ih =>
      intro rest fuel h
      cases fuel with
      | zero => omega
      | succ f =>
          have hs : stringEsc (c :: cs) = escapeChar c ++ stringEsc cs := by
            simp [stringEsc]
          rw [hs, List.append_assoc, parseStringBody_escapeChar,
            ih rest f (by simp at h; omega)]
          rfl

/-- The call-site form: the fuel `parseValue` passes (the input length)
always suffices. -/
theorem parseString_renderString (s rest : Str) :
    parseStringBody (stringEsc s ++ ('"' :: rest)).length (stringEsc s ++ ('"' :: rest))
      = some (s, rest) := by
  apply parseStringBody_stringEsc
  have := length_le_stringEsc s
  simp only [List.length_append, List.length_cons]
  omega

theorem skipWs_ws_append (w : Str) (s : Str) (h : ∀ c ∈ w, isJsonWs c = true) :
    skipWs (w ++ s) = skipWs s := by
  induction w with
  | nil => rfl
  | cons c cs ih =>
      have hc := h c (by simp)
      simp only [List.cons_append, skipWs, List.dropWhile_cons, hc, if_true]
      exact ih (fun d hd => h d (by simp [hd]))

theorem skipWs_not_ws (c : Char) (s : Str) (h : isJsonWs c = false) :
    skipWs (c :: s) = c :: s := by
  simp [skipWs, List.dropWhile_cons, h]

theorem jsonIndent_ws (k : Nat) : ∀ c ∈ jsonIndent k, isJsonWs c = true := by
  intro c hc
  rw [jsonIndent] at hc
  have := List.eq_of_mem_replicate hc
  subst this
  decide

theorem digitChar_isDigit (d : Nat) (h : d < 10) : (digitChar d).isDigit = true := by
  interval_cases d <;> decide

theorem digitVal_digitChar (d : Nat) (h : d < 10) : digitVal (digitChar d) = d := by
  interval_cases d <;> decide

theorem natDigits_ne_nil (n : Nat) : natDigits n ≠ [] := by
  rw [natDigits]
  split_ifs <;> simp

theorem natDigits_digits (n : Nat) : ∀ c ∈ natDigits n, c.isDigit = true := by
  induction n using Nat.strong_induction_on with
  | _ n ih =>
      rw [natDigits]
      split_ifs with h
      · intro c hc
        simp only [List.mem_singleton] at hc
        subst hc
        exact digitChar_isDigit n h
      · intro c hc
        rw [List.mem_append] at hc
        rcases hc with hc | hc
        · exact ih (n / 10) (Nat.div_lt_self (by omega) (by omega)) c hc
        · simp only [List.mem_singleton] at hc
          subst hc
          exact digitChar_isDigit (n % 10) (Nat.mod_lt _ (by omega))

theorem natDigits_foldl (n : Nat) : ∀ acc : Nat,
    (natDigits n).foldl (fun a c => a * 10 + digitVal c) acc
      = acc * 10 ^ (natDigits n).length + n := by
  induction n using Nat.strong_induction_on with
  | _ n ih =>
      intro acc
      rw [natDigits]
      split_ifs with h
      · simp [digitVal_digitChar n h]
      · rw [List.foldl_append,
          ih (n / 10) (Nat.div_lt_self (by omega) (by omega)) acc]
        simp only [List.foldl_cons, List.foldl_nil, List.length_append, List.length_cons,
          List.length_nil]
        rw [digitVal_digitChar (n % 10) (Nat.mod_lt _ (by omega))]
        have hdm : n / 10 * 10 + n % 10 = n := by omega
        calc (acc * 10 ^ (natDigits (n / 10)).length + n / 10) * 10 + n % 10
            = acc * (10 ^ (natDigits (n / 10)).length * 10) + (n / 10 * 10 + n % 10) := by
              ring
          _ = acc * 10 ^ ((natDigits (n / 10)).length + (0 + 1)) + n := by
              rw [hdm, pow_succ]

theorem parseNatAux_not_digit (s : Str) (acc : Nat) (h : headNotDigit s = true) :
    parseNatAux s acc = (acc, s) := by
  cases s with
  | nil => rfl
  | cons c r =>
      simp only [headNotDigit, Bool.not_eq_eq_eq_not, Bool.not_true] at h
      simp [parseNatAux, h]

theorem parseNatAux_digits (ds : Str) : ∀ (rest : Str) (acc : Nat),
    (∀ c ∈ ds, c.isDigit = true) →
    parseNatAux (ds ++ rest) acc
      = parseNatAux rest (ds.foldl (fun a c => a * 10 + digitVal c) acc) := by
  induction ds with
  | nil =>
      intro rest acc _
      rfl
  | cons c cs ih =>
      intro rest acc h
      have hc := h c (by simp)
      simp only [List.cons_append, parseNatAux, hc, if_true, List.foldl_cons]
      exact ih rest _ (fun d hd => h d (by simp [hd]))

/-- Reading back a rendered decimal number. -/
theorem parseNat_natDigits (n : Nat) (rest : Str) (h : headNotDigit rest = true) :
    ∃ c ds, natDigits n = c :: ds ∧ c.isDigit = true ∧
      parseNatAux (ds ++ rest) (digitVal c) = (n, rest) := by
  obtain ⟨c, ds, hcd⟩ := List.exists_cons_of_ne_nil (natDigits_ne_nil n)
  have hdc : c.isDigit = true := natDigits_digits n c (by rw [hcd]; simp)
  refine ⟨c, ds, hcd, hdc, ?_⟩
  have hds : ∀ d ∈ ds, d.isDigit = true :=
    fun d hd => natDigits_digits n d (by rw [hcd]; simp [hd])
  rw [parseNatAux_digits ds rest (digitVal c) hds, parseNatAux_not_digit rest _ h]
  have hf := natDigits_foldl n 0
  rw [hcd] at hf
  simp only [List.foldl_cons, List.length_cons] at hf
  simp only [Nat.zero_mul, Nat.zero_add] at hf
  rw [Prod.mk.injEq]
  refine ⟨?_, rfl⟩
  simpa using hf

theorem isDigit_not_ws (c : Char) (h : c.isDigit = true) : isJsonWs c = false := by
  by_cases h1 : c = ' '
  · subst h1
    exact absurd h (by decide)
  by_cases h2 : c = '\t'
  · subst h2
    exact absurd h (by decide)
  by_cases h3 : c = '\n'
  · subst h3
    exact absurd h (by decide)
  by_cases h4 : c = '\r'
  · subst h4
    exact absurd h (by decide)
  simp [isJsonWs, h1, h2, h3, h4]

/-- Every rendered value starts with a visible character that closes
nothing. -/
theorem render_head (v : Json) (lvl : Nat) :
    ∃ c t, render v lvl = c :: t ∧ isJsonWs c = false ∧ c ≠ ']' ∧ c ≠ '}' := by
  cases v with
  | str s =>
      exact ⟨'"', stringEsc s ++ ['"'], by simp [render, renderString], by decide,
        by decide, by decide⟩
  | nat n =>
      obtain ⟨c, ds, hcd⟩ := List.exists_cons_of_ne_nil (natDigits_ne_nil n)
      have hd : c.isDigit = true := natDigits_digits n c (by rw [hcd]; simp)
      refine ⟨c, ds, by simp [render, hcd], isDigit_not_ws c hd, ?_, ?_⟩
      · intro he
        rw [he] at hd
        exact absurd hd (by decide)
      · intro he
        rw [he] at hd
        exact absurd hd (by decide)
  | bool b =>
      cases b with
      | true => exact ⟨'t', ['r', 'u', 'e'], by simp [render, str], by decide, by decide, by decide⟩
      | false =>
          exact ⟨'f', ['a', 'l', 's', 'e'], by simp [render, str], by decide, by decide, by decide⟩
  | arr xs =>
      cases xs with
      | nil => exact ⟨'[', [']'], by simp [render], by decide, by decide, by decide⟩
      | cons x xs =>
          exact ⟨'[', '\n' :: renderItems (x :: xs) lvl, by simp [render], by decide,
            by decide, by decide⟩
  | obj kvs =>
      cases kvs with
      | nil => exact ⟨'{', ['}'], by simp [render], by decide, by decide, by decide⟩
      | cons kv kvs =>
          exact ⟨'{', '\n' :: renderMembers (kv :: kvs) lvl, by simp [render], by decide,
            by decide, by decide⟩

theorem jfuel_pos (v : Json) : 1 ≤ jfuel v := by
  cases v <;> simp [jfuel]

theorem jfuelMembers_pos (kvs : List (Str × Json)) : 1 ≤ jfuelMembers kvs := by
  cases kvs with
  | nil => simp [jfuelMembers]
  | cons kv kvs =>
      have := jfuel_pos kv.2
      simp [jfuelMembers]
      omega

theorem jfuelItems_pos (xs : List Json) : 1 ≤ jfuelItems xs := by
  cases xs with
  | nil => simp [jfuelItems]
  | cons x xs =>
      have := jfuel_pos x
      simp [jfuelItems]
      omega

theorem skipWs_colon (s : Str) : skipWs (':' :: s) = ':' :: s :=
  skipWs_not_ws _ _ (by decide)

theorem skipWs_comma (s : Str) : skipWs (',' :: s) = ',' :: s :=
  skipWs_not_ws _ _ (by decide)

theorem skipWs_rbrace (s : Str) : skipWs ('}' :: s) = '}' :: s :=
  skipWs_not_ws _ _ (by decide)

theorem skipWs_rbracket (s : Str) : skipWs (']' :: s) = ']' :: s :=
  skipWs_not_ws _ _ (by decide)

/-- A newline followed by an indent is all whitespace. -/
theorem nl_indent_ws (k : Nat) : ∀ c ∈ '\n' :: jsonIndent k, isJsonWs c = true := by
  intro c hc
  rcases List.mem_cons.1 hc with h | h
  · subst h
    decide
  · exact jsonIndent_ws k c h

/-- A digit head is none of the parser's dispatch characters. -/
theorem isDigit_ne_dispatch (c : Char) (h : c.isDigit = true) :
    ¬c = '"' ∧ ¬c = '{' ∧ ¬c = '[' ∧ ¬c = 't' ∧ ¬c = 'f' := by
  refine ⟨?_, ?_, ?_, ?_, ?_⟩ <;>
    (intro he; subst he; exact absurd h (by decide))

/-- One step of `parseValue` on a quote-headed input. -/
theorem parseValue_quote (fuel : Nat) (s r : Str) (h : skipWs s = '"' :: r) :
    parseValue (fuel + 1) s
      = (parseStringBody r.length r).map (fun p => (Json.str p.1, p.2)) := by
  simp only [parseValue, h, if_true]

/-- One step of `parseValue` on an empty-object input. -/
theorem parseValue_obj_nil (fuel : Nat) (s r r2 : Str) (h : skipWs s = '{' :: r)
    (h2 : skipWs r = '}' :: r2) :
    parseValue (fuel + 1) s = some (Json.obj [], r2) := by
  simp only [parseValue, h, h2, if_true, if_false]
  rw [if_neg (by decide : ¬('{' : Char) = '"')]

/-- One step of `parseValue` on a non-empty-object input. -/
theorem parseValue_obj_cons (fuel : Nat) (s r : Str) (c2 : Char) (r2 : Str)
    (h : skipWs s = '{' :: r) (h2 : skipWs r = c2 :: r2) (h3 : ¬c2 = '}') :
    parseValue (fuel + 1) s
      = (parseMembers fuel r).map (fun p => (Json.obj p.1, p.2)) := by
  simp only [parseValue, h, h2, if_true, if_false]
  rw [if_neg h3, if_neg (by decide : ¬('{' : Char) = '"')]

/-- One step of `parseValue` on an empty-array input. -/
theorem parseValue_arr_nil (fuel : Nat) (s r r2 : Str) (h : skipWs s = '[' :: r)
    (h2 : skipWs r = ']' :: r2) :
    parseValue (fuel + 1) s = some (Json.arr [], r2) := by
  simp only [parseValue, h, h2, if_true, if_false]
  rw [if_neg (by decide : ¬('[' : Char) = '"'), if_neg (by decide : ¬('[' : Char) = '{')]

/-- One step of `parseValue` on a non-empty-array input. -/
theorem parseValue_arr_cons (fuel : Nat) (s r : Str) (c2 : Char) (r2 : Str)
    (h : skipWs s = '[' :: r) (h2 : skipWs r = c2 :: r2) (h3 : ¬c2 = ']') :
    parseValue (fuel + 1) s
      = (parseItems fuel r).map (fun p => (Json.arr p.1, p.2)) := by
  simp only [parseValue, h, h2, if_true, if_false]
  rw [if_neg h3, if_neg (by decide : ¬('[' : Char) = '"'),
    if_neg (by decide : ¬('[' : Char) = '{')]

/-- One step of `parseValue` on the literal `true`. -/
theorem parseValue_true (fuel : Nat) (s r2 : Str)
    (h : skipWs s = 't' :: ('r' :: ('u' :: ('e' :: r2)))) :
    parseValue (fuel + 1) s = some (Json.bool true, r2) := by
  simp only [parseValue, h, if_true, if_false]
  rw [if_neg (by decide : ¬('t' : Char) = '"'), if_neg (by decide : ¬('t' : Char) = '{'),
    if_neg (by decide : ¬('t' : Char) = '[')]

/-- One step of `parseValue` on the literal `false`. -/
theorem parseValue_false (fuel : Nat) (s r2 : Str)
    (h : skipWs s = 'f' :: ('a' :: ('l' :: ('s' :: ('e' :: r2))))) :
    parseValue (fuel + 1) s = some (Json.bool false, r2) := by
  simp only [parseValue, h, if_true, if_false]
  rw [if_neg (by decide : ¬('f' : Char) = '"'), if_neg (by decide : ¬('f' : Char) = '{'),
    if_neg (by decide : ¬('f' : Char) = '['), if_neg (by decide : ¬('f' : Char) = 't')]

/-- One step of `parseValue` on a digit-headed input. -/
theorem parseValue_digit (fuel : Nat) (s : Str) (c : Char) (r : Str)
    (h : skipWs s = c :: r) (hd : c.isDigit = true) :
    parseValue (fuel + 1) s
      = some (Json.nat (parseNatAux r (digitVal c)).1, (parseNatAux r (digitVal c)).2) := by
  obtain ⟨h1, h2, h3, h4, h5⟩ := isDigit_ne_dispatch c hd
  simp only [parseValue, h]
  rw [if_neg h1, if_neg h2, if_neg h3, if_neg h4, if_neg h5, if_pos hd]


/-- One step of `parseMembers` past the rendered key. -/
theorem parseMembers_step (fuel : Nat) (s : Str) (k r2 : Str)
    (h : skipWs s = '"' :: (stringEsc k ++ ('"' :: r2))) :
    parseMembers (fuel + 1) s
      = (match skipWs r2 with
         | [] => none
         | c3 :: r3 =>
             if c3 = ':' then
               match parseValue fuel r3 with
               | none => none
               | some (v, r4) =>
                   match skipWs r4 with
                   | [] => none
                   | c5 :: r5 =>
                       if c5 = ',' then
                         (parseMembers fuel r5).map (fun p => ((k, v) :: p.1, p.2))
                       else if c5 = '}' then some ([(k, v)], r5)
                       else none
             else none) := by
  simp only [parseMembers, h, if_true, parseString_renderString]

/-- Skipping the newline and indent of a non-empty array body exposes
the head of its first rendered item, which closes nothing. -/
theorem skipWs_items (x : Json) (xs : List Json) (lvl : Nat) (r2 : Str) :
    ∃ c t, skipWs ('\n' :: (renderItems (x :: xs) lvl ++ r2)) = c :: t ∧
      ¬c = ']' ∧ ¬c = '}' := by
  obtain ⟨c, t, hrh, hws, hb1, hb2⟩ := render_head x (lvl + 1)
  refine ⟨c, t ++ (renderItemsSep xs lvl ++ r2), ?_, hb1, hb2⟩
  have e : '\n' :: (renderItems (x :: xs) lvl ++ r2)
      = ('\n' :: jsonIndent (lvl + 1))
        ++ (render x (lvl + 1) ++ (renderItemsSep xs lvl ++ r2)) := by
    simp [renderItems, List.append_assoc]
  rw [e, skipWs_ws_append _ _ (nl_indent_ws (lvl + 1)), hrh, List.cons_append,
    skipWs_not_ws _ _ hws]

/-- Skipping the newline and indent of a non-empty object body exposes
the opening quote of its first key. -/
theorem skipWs_members (k : Str) (v : Json) (kvs : List (Str × Json)) (lvl : Nat)
    (r2 : Str) :
    skipWs ('\n' :: (renderMembers ((k, v) :: kvs) lvl ++ r2))
      = '"' :: (stringEsc k ++ ('"' :: (':' :: (' ' ::
          (render v (lvl + 1) ++ (renderMembersSep kvs lvl ++ r2)))))) := by
  have e : '\n' :: (renderMembers ((k, v) :: kvs) lvl ++ r2)
      = ('\n' :: jsonIndent (lvl + 1))
        ++ ('"' :: (stringEsc k ++ ('"' :: (':' :: (' ' ::
            (render v (lvl + 1) ++ (renderMembersSep kvs lvl ++ r2))))))) := by
    simp [renderMembers, renderString, List.append_assoc]
  rw [e, skipWs_ws_append _ _ (nl_indent_ws (lvl + 1)),
    skipWs_not_ws _ _ (by decide)]

/-- Parsing inverts rendering: a rendered value (under leading
whitespace, before a digit-free rest) parses back to itself with that
rest unconsumed, and likewise for rendered object and array bodies. -/
theorem parse_render : ∀ fuel : Nat,
    (∀ v lvl w rest, jfuel v ≤ fuel → (∀ c ∈ w, isJsonWs c = true) →
        headNotDigit rest = true →
        parseValue fuel (w ++ (render v lvl ++ rest)) = some (v, rest)) ∧
    (∀ kvs lvl rest, kvs ≠ [] → jfuelMembers kvs ≤ fuel →
        parseMembers fuel ('\n' :: (renderMembers kvs lvl ++ rest))
          = some (kvs, rest)) ∧
    (∀ xs lvl rest, xs ≠ [] → jfuelItems xs ≤ fuel →
        parseItems fuel ('\n' :: (renderItems xs lvl ++ rest)) = some (xs, rest)) := by
  intro fuel
  induction fuel with
  | zero =>
      refine ⟨?_, ?_, ?_⟩
      · intro v lvl w rest hf _ _
        have := jfuel_pos v
        omega
      · intro kvs lvl rest _ hf
        have := jfuelMembers_pos kvs
        omega
      · intro xs lvl rest _ hf
        have := jfuelItems_pos xs
        omega
  | succ fuel ih =>
      obtain ⟨ihv, ihm, ihi⟩ := ih
      refine ⟨?_, ?_, ?_⟩
      · intro v lvl w rest hf hw hnd
        cases v with
        | str s =>
            have hsk : skipWs (w ++ (render (Json.str s) lvl ++ rest))
                = '"' :: (stringEsc s ++ ('"' :: rest)) := by
              rw [skipWs_ws_append _ _ hw]
              have e : render (Json.str s) lvl ++ rest
                  = '"' :: (stringEsc s ++ ('"' :: rest)) := by
                simp [render, renderString]
              rw [e, skipWs_not_ws _ _ (by decide)]
            rw [parseValue_quote fuel _ _ hsk, parseString_renderString]
            rfl
        | nat n =>
            obtain ⟨c, ds, hcd, hdc, hpn⟩ := parseNat_natDigits n rest hnd
            have hsk : skipWs (w ++ (render (Json.nat n) lvl ++ rest))
                = c :: (ds ++ rest) := by
              rw [skipWs_ws_append _ _ hw]
              have e : render (Json.nat n) lvl ++ rest = c :: (ds ++ rest) := by
                simp [render, hcd]
              rw [e, skipWs_not_ws _ _ (isDigit_not_ws c hdc)]
            rw [parseValue_digit fuel _ c _ hsk hdc, hpn]
        | bool b =>
            cases b with
            | true =>
                have hsk : skipWs (w ++ (render (Json.bool true) lvl ++ rest))
                    = 't' :: ('r' :: ('u' :: ('e' :: rest))) := by
                  rw [skipWs_ws_append _ _ hw]
                  have e : render (Json.bool true) lvl ++ rest
                      = 't' :: ('r' :: ('u' :: ('e' :: rest))) := by
                    simp [render, str]
                  rw [e, skipWs_not_ws _ _ (by decide)]
                exact parseValue_true fuel _ _ hsk
            | false =>
                have hsk : skipWs (w ++ (render (Json.bool false) lvl ++ rest))
                    = 'f' :: ('a' :: ('l' :: ('s' :: ('e' :: rest)))) := by
                  rw [skipWs_ws_append _ _ hw]
                  have e : render (Json.bool false) lvl ++ rest
                      = 'f' :: ('a' :: ('l' :: ('s' :: ('e' :: rest)))) := by
                    simp [render, str]
                  rw [e, skipWs_not_ws _ _ (by decide)]
                exact parseValue_false fuel _ _ hsk
        | arr xs =>
            cases xs with
            | nil =>
                have hsk : skipWs (w ++ (render (Json.arr []) lvl ++ rest))
                    = '[' :: (']' :: rest) := by
                  rw [skipWs_ws_append _ _ hw]
                  have e : render (Json.arr []) lvl ++ rest = '[' :: (']' :: rest) := by
                    simp [render]
                  rw [e, skipWs_not_ws _ _ (by decide)]
                exact parseValue_arr_nil fuel _ _ rest hsk (skipWs_rbracket rest)
            | cons x xs =>
                have hsk : skipWs (w ++ (render (Json.arr (x :: xs)) lvl ++ rest))
                    = '[' :: ('\n' :: (renderItems (x :: xs) lvl ++ rest)) := by
                  rw [skipWs_ws_append _ _ hw]
                  have e : render (Json.arr (x :: xs)) lvl ++ rest
                      = '[' :: ('\n' :: (renderItems (x :: xs) lvl ++ rest)) := by
                    simp [render]
                  rw [e, skipWs_not_ws _ _ (by decide)]
                obtain ⟨c2, t2, h2, hb1, _⟩ := skipWs_items x xs lvl rest
                have hfi : jfuelItems (x :: xs) ≤ fuel := by
                  simp only [jfuel] at hf
                  omega
                rw [parseValue_arr_cons fuel _ _ c2 t2 hsk h2 hb1,
                  ihi (x :: xs) lvl rest (by simp) hfi]
                rfl
        | obj kvs =>
            cases kvs with
            | nil =>
                have hsk : skipWs (w ++ (render (Json.obj []) lvl ++ rest))
                    = '{' :: ('}' :: rest) := by
                  rw [skipWs_ws_append _ _ hw]
                  have e : render (Json.obj []) lvl ++ rest = '{' :: ('}' :: rest) := by
                    simp [render]
                  rw [e, skipWs_not_ws _ _ (by decide)]
                exact parseValue_obj_nil fuel _ _ rest hsk (skipWs_rbrace rest)
            | cons kv kvs =>
                obtain ⟨k, v⟩ := kv
                have hsk : skipWs (w ++ (render (Json.obj ((k, v) :: kvs)) lvl ++ rest))
                    = '{' :: ('\n' :: (renderMembers ((k, v) :: kvs) lvl ++ rest)) := by
                  rw [skipWs_ws_append _ _ hw]
                  have e : render (Json.obj ((k, v) :: kvs)) lvl ++ rest
                      = '{' :: ('\n' :: (renderMembers ((k, v) :: kvs) lvl ++ rest)) := by
                    simp [render]
                  rw [e, skipWs_not_ws _ _ (by decide)]
                have h2 := skipWs_members k v kvs lvl rest
                have hfm : jfuelMembers ((k, v) :: kvs) ≤ fuel := by
                  simp only [jfuel] at hf
                  omega
                rw [parseValue_obj_cons fuel _ _ '"' _ hsk h2 (by decide),
                  ihm ((k, v) :: kvs) lvl rest (by simp) hfm]
                rfl
      · intro kvs lvl rest hne hfm
        cases kvs with
        | nil => exact absurd rfl hne
        | cons kv kvs2 =>
            obtain ⟨k, v⟩ := kv
            have hsk := skipWs_members k v kvs2 lvl rest
            cases kvs2 with
            | nil =>
                have hfv : jfuel v ≤ fuel := by
                  simp only [jfuelMembers] at hfm
                  omega
                have hv := ihv v (lvl + 1) [' '] (renderMembersSep [] lvl ++ rest) hfv
                  (by decide)
                  (by simp only [renderMembersSep, List.cons_append, headNotDigit]; decide)
                simp only [List.singleton_append] at hv
                have e3 : skipWs (renderMembersSep [] lvl ++ rest) = '}' :: rest := by
                  have e2 : renderMembersSep [] lvl ++ rest
                      = ('\n' :: jsonIndent lvl) ++ ('}' :: rest) := by
                    simp [renderMembersSep, List.append_assoc]
                  rw [e2, skipWs_ws_append _ _ (nl_indent_ws lvl), skipWs_rbrace]
                rw [parseMembers_step fuel _ k _ hsk]
                simp only [skipWs_colon, hv, e3, if_true, if_false]
                rw [if_neg (by decide : ¬('}' : Char) = ',')]
            | cons kv2 kvs3 =>
                obtain ⟨k2, v2⟩ := kv2
                have hfv : jfuel v ≤ fuel := by
                  have h1 := jfuelMembers_pos ((k2, v2) :: kvs3)
                  simp only [jfuelMembers] at hfm
                  omega
                have hfm2 : jfuelMembers ((k2, v2) :: kvs3) ≤ fuel := by
                  have h1 := jfuel_pos v
                  simp only [jfuelMembers] at hfm ⊢
                  omega
                have hv := ihv v (lvl + 1) [' ']
                  (renderMembersSep ((k2, v2) :: kvs3) lvl ++ rest) hfv (by decide)
                  (by simp only [renderMembersSep, List.cons_append, headNotDigit]; decide)
                simp only [List.singleton_append] at hv
                have e2 : renderMembersSep ((k2, v2) :: kvs3) lvl ++ rest
                    = ',' :: ('\n' :: (renderMembers ((k2, v2) :: kvs3) lvl ++ rest)) := by
                  simp [renderMembersSep, renderMembers, List.append_assoc]
                have hm := ihm ((k2, v2) :: kvs3) lvl rest (by simp) hfm2
                rw [parseMembers_step fuel _ k _ hsk]
                simp only [skipWs_colon, hv, if_true]
                rw [e2]
                simp only [skipWs_comma, hm, if_true]
                rfl
      · intro xs lvl rest hne hfi
        cases xs with
        | nil => exact absurd rfl hne
        | cons x xs2 =>
            have hfx : jfuel x ≤ fuel := by
              have := jfuelItems_pos xs2
              simp only [jfuelItems] at hfi
              omega
            cases xs2 with
            | nil =>
                have e : ('\n' : Char) :: (renderItems [x] lvl ++ rest)
                    = ('\n' :: jsonIndent (lvl + 1))
                      ++ (render x (lvl + 1) ++ (renderItemsSep [] lvl ++ rest)) := by
                  simp [renderItems, List.append_assoc]
                have hv := ihv x (lvl + 1) ('\n' :: jsonIndent (lvl + 1))
                  (renderItemsSep [] lvl ++ rest) hfx (nl_indent_ws (lvl + 1))
                  (by simp only [renderItemsSep, List.cons_append, headNotDigit]; decide)
                have e3 : skipWs (renderItemsSep [] lvl ++ rest) = ']' :: rest := by
                  have e2 : renderItemsSep [] lvl ++ rest
                      = ('\n' :: jsonIndent lvl) ++ (']' :: rest) := by
                    simp [renderItemsSep, List.append_assoc]
                  rw [e2, skipWs_ws_append _ _ (nl_indent_ws lvl), skipWs_rbracket]
                simp only [parseItems, e, hv, e3, if_true, if_false]
                rw [if_neg (by decide : ¬(']' : Char) = ',')]
            | cons x2 xs3 =>
                have hfi2 : jfuelItems (x2 :: xs3) ≤ fuel := by
                  have h1 := jfuel_pos x
                  simp only [jfuelItems] at hfi ⊢
                  omega
                have e : ('\n' : Char) :: (renderItems (x :: (x2 :: xs3)) lvl ++ rest)
                    = ('\n' :: jsonIndent (lvl + 1))
                      ++ (render x (lvl + 1)
                        ++ (renderItemsSep (x2 :: xs3) lvl ++ rest)) := by
                  simp [renderItems, List.append_assoc]
                have hv := ihv x (lvl + 1) ('\n' :: jsonIndent (lvl + 1))
                  (renderItemsSep (x2 :: xs3) lvl ++ rest) hfx (nl_indent_ws (lvl + 1))
                  (by simp only [renderItemsSep, List.cons_append, headNotDigit]; decide)
                have e2 : renderItemsSep (x2 :: xs3) lvl ++ rest
                    = ',' :: ('\n' :: (renderItems (x2 :: xs3) lvl ++ rest)) := by
                  simp [renderItemsSep, renderItems, List.append_assoc]
                have hm := ihi (x2 :: xs3) lvl rest (by simp) hfi2
                simp only [parseItems, e, hv, if_true]
                rw [e2]
                simp only [skipWs_comma, hm, if_true]
                rfl
mutual

/-- The parser fuel a value needs is bounded by its rendered length. -/
theorem jfuel_le_render (v : Json) (lvl : Nat) : jfuel v ≤ (render v lvl).length := by
  cases v with
  | str s =>
      simp only [jfuel, render, renderString, List.length_cons]
      omega
  | nat n =>
      simp only [jfuel, render]
      exact List.length_pos.mpr (natDigits_ne_nil n)
  | bool b =>
      cases b with
      | true =>
          simp only [jfuel, render]
          decide
      | false =>
          simp only [jfuel, render]
          decide
  | arr xs =>
      cases xs with
      | nil =>
          simp only [jfuel, jfuelItems, render, List.length_cons]
          omega
      | cons x xs =>
          have h := jfuelItems_le_renderItems (x :: xs) lvl
          simp only [jfuel, render, List.length_cons]
          omega
  | obj kvs =>
      cases kvs with
      | nil =>
          simp only [jfuel, jfuelMembers, render, List.length_cons]
          omega
      | cons kv kvs =>
          have h := jfuelMembers_le_renderMembers (kv :: kvs) lvl
          simp only [jfuel, render, List.length_cons]
          omega

/-- The parser fuel an array body needs is bounded by one more than its
rendered length. -/
theorem jfuelItems_le_renderItems (xs : List Json) (lvl : Nat) :
    jfuelItems xs ≤ 1 + (renderItems xs lvl).length := by
  cases xs with
  | nil =>
      simp only [jfuelItems, renderItems, List.length_cons]
      omega
  | cons x xs =>
      have h1 := jfuel_le_render x (lvl + 1)
      have h2 := jfuelItems_le_sep xs lvl
      simp only [jfuelItems, renderItems, List.length_append]
      omega

/-- The parser fuel the remaining items need is bounded by the rendered
length of the separator-led tail. -/
theorem jfuelItems_le_sep (xs : List Json) (lvl : Nat) :
    jfuelItems xs ≤ (renderItemsSep xs lvl).length := by
  cases xs with
  | nil =>
      simp only [jfuelItems, renderItemsSep, List.length_cons]
      omega
  | cons y ys =>
      have h1 := jfuel_le_render y (lvl + 1)
      have h2 := jfuelItems_le_sep ys lvl
      simp only [jfuelItems, renderItemsSep, List.length_cons, List.length_append]
      omega

/-- The parser fuel an object body needs is bounded by one more than its
rendered length. -/
theorem jfuelMembers_le_renderMembers (kvs : List (Str × Json)) (lvl : Nat) :
    jfuelMembers kvs ≤ 1 + (renderMembers kvs lvl).length := by
  cases kvs with
  | nil =>
      simp only [jfuelMembers, renderMembers, List.length_cons]
      omega
  | cons kv kvs =>
      obtain ⟨k, v⟩ := kv
      have h1 := jfuel_le_render v (lvl + 1)
      have h2 := jfuelMembers_le_sep kvs lvl
      simp only [jfuelMembers, renderMembers, List.length_append, List.length_cons]
      omega

/-- The parser fuel the remaining members need is bounded by the
rendered length of the separator-led tail. -/
theorem jfuelMembers_le_sep (kvs : List (Str × Json)) (lvl : Nat) :
    jfuelMembers kvs ≤ (renderMembersSep kvs lvl).length := by
  cases kvs with
  | nil =>
      simp only [jfuelMembers, renderMembersSep, List.length_cons]
      omega
  | cons kv kvs =>
      obtain ⟨k, v⟩ := kv
      have h1 := jfuel_le_render v (lvl + 1)
      have h2 := jfuelMembers_le_sep kvs lvl
      simp only [jfuelMembers, renderMembersSep, List.length_cons, List.length_append]
      omega

end

/-- C9.  Modelled from the spec: persisting a report with
`save_report`'s `json.dump(report_data, f, indent=2)` and re-reading the
file with `json.load` yields exactly the report's JSON value; in
particular the persisted `error_type` (the error category), the
persisted `impact_level`, and the persisted `analysis` text come back
exactly as the report holds them. -/
theorem save_report_roundtrip (r : Report) :
    json_loads (save_report_text r) = some (reportJson r) ∧
    (reportJson r).getD (str ("error_type")) (Json.str []) = Json.str r.error_type ∧
    (reportJson r).getD (str ("impact_level")) (Json.str []) = Json.str r.impact_level ∧
    (reportJson r).getD (str ("analysis")) (Json.str []) = Json.str r.analysis := by
  refine ⟨?_, rfl, rfl, rfl⟩
  have hb : jfuel (reportJson r) ≤ (render (reportJson r) 0).length + 1 := by
    have := jfuel_le_render (reportJson r) 0
    omega
  have h := (parse_render ((render (reportJson r) 0).length + 1)).1 (reportJson r) 0 [] []
    hb (by simp) rfl
  simp only [List.nil_append, List.append_nil] at h
  simp only [json_loads, save_report_text, h, List.isEmpty_nil, if_true]
  rfl

end GraniteRCA
